import Mathlib

/-!
go-stratum-client: work decoder, request codec and session state machine.

A shallow embedding of `work.go`, `request.go` and `stratum.go`.

* Go strings are Lean strings; `len(s)` is `String.utf8ByteSize`.
* Bytes are natural numbers below 256, byte slices are lists.
* `uint64` values are natural numbers, reduced modulo `2^64` where the Go
  operation can wrap.
* A Go call that can return an error or panic yields an `Outcome`.
-/

set_option maxRecDepth 100000

namespace Stratum

/-! ## Dynamically typed values -/

/-- A decoded JSON document, the shape of the Go values held in an
`interface{}` after `json.Unmarshal` (or wrapped by `simplejson`).  A number
literal written as plain decimal digits with an optional sign is `int`; every
other number literal (fraction, exponent) is `float`. -/
inductive Json where
  | null
  | bool (b : Bool)
  | int (i : Int)
  | float
  | str (s : String)
  | arr (xs : List Json)
  | obj (kvs : List (String × Json))

/-- Result of a Go call: a value, a returned `error`, or a run-time panic. -/
inductive Outcome (α : Type) where
  | ok (a : α)
  | error (msg : String)
  | panic (msg : String)

/-- The call returned a value and a nil error. -/
def Outcome.isOk {α : Type} : Outcome α → Bool
  | .ok _ => true
  | _ => false

/-- The call returned a non-nil error (and no value). -/
def Outcome.isError {α : Type} : Outcome α → Bool
  | .error _ => true
  | _ => false

/-- The call did not return: the goroutine panicked. -/
def Outcome.isPanic {α : Type} : Outcome α → Bool
  | .panic _ => true
  | _ => false

/-- Go map lookup `m[k]` on a `map[string]interface{}`; `none` is the nil
interface returned for a missing key. -/
def mapGet (m : List (String × Json)) (k : String) : Option Json :=
  m.lookup k

/-! ## Hex helpers (util.go) -/

/-- Value of one hexadecimal digit, either case. -/
def hexVal (c : Char) : Option Nat :=
  if '0' ≤ c ∧ c ≤ '9' then some (c.toNat - 48)
  else if 'a' ≤ c ∧ c ≤ 'f' then some (c.toNat - 87)
  else if 'A' ≤ c ∧ c ≤ 'F' then some (c.toNat - 55)
  else none

/-- Decode consecutive pairs of hex digits into bytes. -/
def decodePairs : List Char → Option (List Nat)
  | [] => some []
  | [_] => none
  | a :: b :: rest =>
    match hexVal a, hexVal b, decodePairs rest with
    | some hi, some lo, some tl => some ((16 * hi + lo) :: tl)
    | _, _, _ => none

/-- Modelled from the spec: `HexToBin`, whose file (util.go) is not among the
sources.  The spec describes it as the conversion "hex blob → raw bytes" that
round-trips with hex encoding on valid hex strings of even length: every two
hex digits give one byte, and a string of odd length or with a non-hex
character is an error.  At both call sites in `ParseWork` covered below the
`size` argument equals the length of the string. -/
def HexToBin (hex : String) (_size : Nat) : Except String (List Nat) :=
  match decodePairs hex.data with
  | some bs => .ok bs
  | none => .error "invalid hex string"

/-- One lower-case hexadecimal digit. -/
def hexDigit (n : Nat) : Char :=
  if n < 10 then Char.ofNat (48 + n) else Char.ofNat (87 + n)

/-- Modelled from the spec: `BinToHex` (util.go, not among the sources), the
hex encoding of a byte slice, two lower-case digits per byte. -/
def BinToHex (bin : List Nat) : Except String String :=
  .ok (String.mk (bin.flatMap fun b => [hexDigit (b / 16 % 16), hexDigit (b % 16)]))

/-- Every character of the string is a hexadecimal digit. -/
def IsHex (s : String) : Prop :=
  ∀ c ∈ s.data, (hexVal c).isSome = true

instance (s : String) : Decidable (IsHex s) := by
  unfold IsHex; infer_instance

/-! ## work.go -/

/-- The value `float64(num) / float64(den)`: the operands of the float64
division, kept exact (the rounding of the quotient is not modelled). -/
structure FloatQuot where
  num : Nat
  den : Nat
deriving DecidableEq, Repr

/-- Go struct `Work`.  `NoncePtr` is the byte offset inside `Data` that the
unsafe pointer aliases. -/
structure Work where
  Data : List Nat
  Target : Nat
  JobID : String
  NoncePtr : Nat
  Difficulty : FloatQuot
  XNonce2 : String
  Size : Nat
deriving DecidableEq, Repr

/-- Go `NewWork`: a zeroed 96-byte buffer, target 0, nonce pointer at byte 39. -/
def NewWork : Work where
  Data := List.replicate 96 0
  Target := 0
  JobID := ""
  NoncePtr := 39
  Difficulty := ⟨0, 1⟩
  XNonce2 := ""
  Size := 0

/-- Go builtin `copy(dst, src)`: overwrites the first `min (len dst) (len src)`
elements of `dst`. -/
def goCopy (dst src : List Nat) : List Nat :=
  src.take dst.length ++ dst.drop src.length

/-- The loop `for i := from; i < len(data); i++ { data[i] = 0 }`. -/
def zeroFrom (data : List Nat) (i : Nat) : List Nat :=
  data.take i ++ List.replicate (data.length - i) 0

/-- Go `binary.LittleEndian.Uint32(b)`, a `uint32`; `none` is the bounds-check
panic on a slice shorter than four bytes. -/
def littleEndianUint32 : List Nat → Option Nat
  | b0 :: b1 :: b2 :: b3 :: _ => some ((b0 + 256 * b1 + 65536 * b2 + 16777216 * b3) % 2 ^ 32)
  | _ => none

/-- Go constant `math.MaxUint64`. -/
def MaxUint64 : Nat := 2 ^ 64 - 1

/-- Go `ParseWork(args)`. -/
def ParseWork (args : List (String × Json)) : Outcome Work :=
  match mapGet args "job_id" with
  | some (.str jobId) =>
    match mapGet args "blob" with
    | some (.str hexBlob) =>
      let blobLen := hexBlob.utf8ByteSize
      if blobLen % 2 ≠ 0 ∨ (blobLen / 2 < 40 ∧ blobLen ≠ 0) ∨ blobLen / 2 > 128 then
        .error "JSON invalid blob length"
      else if blobLen = 0 then
        .error "Blob length was 0?"
      else
        match HexToBin hexBlob blobLen with
        | .error e => .error e
        | .ok blob =>
          match mapGet args "target" with
          | some (.str targetStr) =>
            -- the error of this second HexToBin call is dropped by the source
            let b : List Nat :=
              match HexToBin targetStr 8 with
              | .ok bs => bs
              | .error _ => []
            match littleEndianUint32 b with
            | none => .panic "index out of range"
            | some t32 =>
              let target := t32
              if target = 0 then .panic "integer divide by zero"
              else
                let target64 := MaxUint64 / (0xFFFFFFFF / target)
                let difficulty : FloatQuot := ⟨0xFFFFFFFFFFFFFFFF, target64⟩
                let work := NewWork
                let data := zeroFrom (goCopy work.Data blob) blob.length
                .ok { work with
                  Data := data
                  Size := blobLen / 2
                  JobID := jobId
                  Target := target64
                  Difficulty := difficulty }
          | _ => .panic "interface conversion: target is not a string"
    | _ => .panic "interface conversion: blob is not a string"
  | _ => .panic "interface conversion: job_id is not a string"

/-- The work record `ParseWork` assembles from the job id, the blob's hex
length, the decoded blob and the 32-bit target. -/
def builtWork (jobId : String) (blobLen : Nat) (blob : List Nat) (t : Nat) : Work :=
  { NewWork with
    Data := zeroFrom (goCopy NewWork.Data blob) blob.length
    Size := blobLen / 2
    JobID := jobId
    Target := MaxUint64 / (0xFFFFFFFF / t)
    Difficulty := ⟨0xFFFFFFFFFFFFFFFF, MaxUint64 / (0xFFFFFFFF / t)⟩ }

/-! ## request.go -/

/-- Go struct `Request`.  `MessageID` is a `*uint64`; in this program it always
points at the session counter, and the field holds the value read through the
pointer (`none` for a nil pointer). -/
structure Request where
  MessageID : Option Nat
  RemoteMethod : String
  Parameters : Json

/-- Go `NewRequest`. -/
def NewRequest (id : Option Nat) (method : String) (args : Json) : Request :=
  ⟨id, method, args⟩

/-- JSON value of a `*uint64`. -/
def idJson : Option Nat → Json
  | none => .null
  | some n => .int (Int.ofNat n)

/-- The JSON object `encoding/json` produces for a `*Request`: one member per
struct field, named by its `json` tag, in declaration order. -/
def Request.toJson (r : Request) : Json :=
  .obj [("id", idJson r.MessageID), ("method", .str r.RemoteMethod), ("params", r.Parameters)]

/-- The local map `payload` that `JsonRPCString` fills in. -/
def Request.payload (r : Request) : List (String × Json) :=
  [("jsonrpc", .str "2.0"), ("method", .str r.RemoteMethod), ("id", idJson r.MessageID),
   ("params", r.Parameters)]

/-- Go `(*Request).JsonRPCString`.  `marshal` is `json.Marshal` on the JSON
value of its argument.  The source builds `payload` and then marshals `r`. -/
def Request.JsonRPCString (marshal : Json → Except String String) (r : Request) :
    Except String String :=
  let _payload := r.payload
  match marshal r.toJson with
  | .error e => .error e
  | .ok b => .ok (b ++ "\n")

/-! ## response.go, errors.go -/

/-- Go struct `StratumError`. -/
structure StratumError where
  Code : Int
  Message : String
  Traceback : Json

/-- Go struct `Response`.  `Result` and `Params` are `*json.RawMessage`: `none`
when the member is absent or `null`. -/
structure Response where
  MessageID : Option Nat
  Error : Option StratumError
  Method : String
  Result : Option Json
  Params : Option Json

/-- Go `(*StratumError).Error`, up to the formatting of the three parts. -/
def StratumError.Error (se : StratumError) : String :=
  "code=" ++ toString se.Code ++ " msg=" ++ se.Message

/-! ## simplejson accessors used by the handshake -/

/-- Library `(*Json).GetIndex`: the element at `index` of an array, and a
wrapper of nil for any other value or an index out of range. -/
def Json.GetIndex (j : Json) (index : Nat) : Json :=
  match j with
  | .arr xs => xs.getD index .null
  | _ => .null

/-- Library `(*Json).MustString` without a default argument: the string, or
the empty string when the value is not a string. -/
def Json.MustString : Json → String
  | .str s => s
  | _ => ""

/-- Library `(*Json).MustInt` without a default argument: the number parsed as
int64, or 0 when the value is not a number or does not parse as int64. -/
def Json.MustInt : Json → Int
  | .int i => if -(2 ^ 63) ≤ i ∧ i < 2 ^ 63 then i else 0
  | _ => 0

/-- Go `json.Unmarshal(raw, &ok)` for `ok bool` initially false. -/
def unmarshalBool : Json → Except String Bool
  | .bool b => .ok b
  | .null => .ok false
  | _ => .error "json: cannot unmarshal into Go value of type bool"

/-! ## stratum.go: session state -/

/-- Go struct `Subscribe` (fields as used by `authorizeLocked`). -/
structure Subscribe where
  MiningNotify : String
  MiningSetDifficulty : String
  ExtraNonce1 : String
  Extranonce2_size : Int

/-- The socket owned by the session: whether it was closed, and every chunk
written to it so far. -/
structure Transport where
  closed : Bool
  sent : List String

/-- An element of a `set.Interface`, which stores `interface{}` keys: this
program adds `uint64` message ids and queries with `string` job ids. -/
inductive SetItem where
  | uint64 (n : Nat)
  | str (s : String)
deriving DecidableEq, Repr

/-- Library `Set.Add`. -/
def setAdd (s : List SetItem) (x : SetItem) : List SetItem :=
  if x ∈ s then s else s ++ [x]

/-- Library `Set.Has` for one item. -/
def setHas (s : List SetItem) (x : SetItem) : Bool :=
  decide (x ∈ s)

/-- What `SubmitWork` publishes to submission listeners: the argument map and
the work reference stored under the key "work". -/
structure SubmitEvent where
  args : List (String × Json)
  work : Option Nat

/-- Go struct `StratumContext`.  A `*Work` is `none` (nil) or the address of a
Work on the heap.  A listener channel is represented by the sequence of values
sent on it.  `handlers` counts the `RunHandleMessages` goroutines started. -/
structure StratumContext where
  Conn : Option Transport
  id : Nat
  SessionID : String
  KeepAliveDuration : Int
  Work : Option Nat
  Subscribe : Option Subscribe
  workListeners : List (List (Option Nat))
  submitListeners : List (List SubmitEvent)
  responseListeners : List (List Response)
  LastSubmittedWork : Option Nat
  submittedWorkRequestIds : List SetItem
  numAcceptedResults : Nat
  numSubmittedResults : Nat
  url : String
  username : String
  password : String
  connected : Bool
  lastReconnectTime : Int
  handlers : Nat

/-- Nanoseconds per second (`time.Second`). -/
def Second : Int := 1000000000

/-- Go `New`: an unconnected session. -/
def New : StratumContext where
  Conn := none
  id := 0
  SessionID := ""
  KeepAliveDuration := 60 * Second
  Work := none
  Subscribe := none
  workListeners := []
  submitListeners := []
  responseListeners := []
  LastSubmittedWork := none
  submittedWorkRequestIds := []
  numAcceptedResults := 0
  numSubmittedResults := 0
  url := ""
  username := ""
  password := ""
  connected := false
  lastReconnectTime := 0
  handlers := 0

/-- Go `Connect`: `dialOk` is the outcome of `net.Dial`. -/
def Connect (sc : StratumContext) (addr : String) (dialOk : Bool) :
    StratumContext × Outcome Unit :=
  if dialOk then
    ({ sc with url := addr, Conn := some ⟨false, []⟩ }, .ok ())
  else
    (sc, .error "dial failed")

/-- Go `sc.Write`: `writeOk` is the outcome the network gives to a write on an
open socket. -/
def StratumContext.Write (sc : StratumContext) (data : String) (writeOk : Bool) :
    StratumContext × Outcome Unit :=
  match sc.Conn with
  | none => (sc, .panic "nil pointer dereference")
  | some t =>
    if t.closed then (sc, .error "use of closed network connection")
    else if writeOk then
      ({ sc with Conn := some { t with sent := t.sent ++ [data] } }, .ok ())
    else (sc, .error "write failed")

/-- Go `sc.Close`. -/
def StratumContext.Close (sc : StratumContext) : StratumContext × Outcome Unit :=
  match sc.Conn with
  | none => (sc, .panic "nil pointer dereference")
  | some t => ({ sc with Conn := some { t with closed := true } }, .ok ())

/-- Go `CallLocked` (and `Call`, which only adds the lock). -/
def CallLocked (marshal : Json → Except String String) (sc : StratumContext)
    (serviceMethod : String) (args : Json) (writeOk : Bool) :
    StratumContext × Outcome Request :=
  let sc1 := { sc with id := (sc.id + 1) % 2 ^ 64 }
  let req := NewRequest (some sc1.id) serviceMethod args
  match req.JsonRPCString marshal with
  | .error e => (sc1, .error e)
  | .ok str =>
    match sc1.Write str writeOk with
    | (sc2, .ok _) => (sc2, .ok req)
    | (sc2, .error e) => (sc2, .error e)
    | (sc2, .panic e) => (sc2, .panic e)

/-- Go `ReadResponse`: `line` is what reading and parsing one line gives, an
error or a decoded response; reading from a closed socket fails. -/
def ReadResponse (sc : StratumContext) (line : Except String Response) : Outcome Response :=
  match sc.Conn with
  | none => .panic "nil pointer dereference"
  | some t =>
    if t.closed then .error "use of closed network connection"
    else
      match line with
      | .error e => .error e
      | .ok r => .ok r

/-- The `Subscribe` literal built from the subscribe result. -/
def decodeSubscribe (res : Json) : Subscribe where
  MiningNotify := (((res.GetIndex 0).GetIndex 0).GetIndex 1).MustString
  MiningSetDifficulty := (((res.GetIndex 0).GetIndex 1).GetIndex 1).MustString
  ExtraNonce1 := ((res.GetIndex 0).GetIndex 2).MustString
  Extranonce2_size := ((res.GetIndex 0).GetIndex 3).MustInt

/-- Second half of `authorizeLocked`, from the `mining.subscribe` call on. -/
def subscribeStep (marshal : Json → Except String String) (sc : StratumContext)
    (w2 : Bool) (r2 : Except String Response) : StratumContext × Outcome Unit :=
  match CallLocked marshal sc "mining.subscribe" (.arr []) w2 with
  | (sc3, .error e) => (sc3, .error e)
  | (sc3, .panic e) => (sc3, .panic e)
  | (sc3, .ok _) =>
    match ReadResponse sc3 r2 with
    | .error e => (sc3, .error e)
    | .panic e => (sc3, .panic e)
    | .ok response =>
      match response.Error with
      | some se => (sc3, .error se.Error)
      | none =>
        match response.Result with
        | none => (sc3, .panic "nil pointer dereference")
        | some res =>
          ({ sc3 with Subscribe := some (decodeSubscribe res), handlers := sc3.handlers + 1 },
            .ok ())

/-- Go `authorizeLocked` (and `Authorize`, which only adds the lock).  `w1`,
`w2` are the outcomes of the two writes, `r1`, `r2` the two lines read. -/
def authorizeLocked (marshal : Json → Except String String) (sc : StratumContext)
    (username password : String) (w1 : Bool) (r1 : Except String Response)
    (w2 : Bool) (r2 : Except String Response) : StratumContext × Outcome Unit :=
  match CallLocked marshal sc "mining.authorize" (.arr [.str username, .str password]) w1 with
  | (sc1, .error e) => (sc1, .error e)
  | (sc1, .panic e) => (sc1, .panic e)
  | (sc1, .ok _) =>
    match ReadResponse sc1 r1 with
    | .error e => (sc1, .error e)
    | .panic e => (sc1, .panic e)
    | .ok response =>
      match response.Error with
      | some se => (sc1, .error se.Error)
      | none =>
        match response.Result with
        | none => (sc1, .panic "nil pointer dereference")
        | some raw =>
          match unmarshalBool raw with
          | .error e => (sc1, .error e)
          | .ok false => (sc1, .error "auth fail")
          | .ok true =>
            let sc2 := { sc1 with connected := true, username := username, password := password }
            subscribeStep marshal sc2 w2 r2

/-- Go `NotifyNewWork`.  `heap` gives the Work stored at each address. -/
def NotifyNewWork (heap : Nat → Work) (sc : StratumContext) (work : Option Nat) :
    StratumContext × Outcome Unit :=
  match work with
  | none => (sc, .panic "nil pointer dereference")
  | some a =>
    let sameAsCurrent : Bool :=
      match sc.Work with
      | some cur => decide ((heap a).JobID = (heap cur).JobID)
      | none => false
    if sameAsCurrent || setHas sc.submittedWorkRequestIds (.str (heap a).JobID) then
      StratumContext.Close { sc with connected := false }
    else
      ({ sc with
          Work := some a
          workListeners := sc.workListeners.map fun ch => ch ++ [some a] },
        .ok ())

/-- Go `NotifySubmit`. -/
def NotifySubmit (sc : StratumContext) (data : SubmitEvent) : StratumContext :=
  { sc with submitListeners := sc.submitListeners.map fun ch => ch ++ [data] }

/-- Go `NotifyResponse`. -/
def NotifyResponse (sc : StratumContext) (response : Response) : StratumContext :=
  { sc with responseListeners := sc.responseListeners.map fun ch => ch ++ [response] }

/-- Go `SubmitWork`.  `writeOk` is the outcome of the write, if one is made. -/
def SubmitWork (marshal : Json → Except String String) (heap : Nat → Work)
    (sc : StratumContext) (work : Option Nat) (hash : String) (writeOk : Bool) :
    StratumContext × Outcome Unit :=
  if work = sc.LastSubmittedWork then (sc, .ok ())
  else
    match work with
    | none => (sc, .panic "nil pointer dereference")
    | some a =>
      if (heap a).Data.length < 43 then (sc, .panic "slice bounds out of range")
      else
        match BinToHex (((heap a).Data.drop 39).take 4) with
        | .error e => (sc, .error e)
        | .ok nonceStr =>
          let args : List (String × Json) :=
            [("id", .str sc.SessionID), ("job_id", .str (heap a).JobID),
             ("nonce", .str nonceStr), ("result", .str hash)]
          match CallLocked marshal sc "submit" (.obj args) writeOk with
          | (sc1, .error e) => (sc1, .error e)
          | (sc1, .panic e) => (sc1, .panic e)
          | (sc1, .ok _) =>
            -- *req.MessageID reads the session counter
            let sc2 := { sc1 with
              submittedWorkRequestIds := setAdd sc1.submittedWorkRequestIds (.uint64 sc1.id) }
            let sc3 := NotifySubmit sc2 ⟨args, work⟩
            ({ sc3 with LastSubmittedWork := work }, .ok ())

/-! ## stratum.go: reconnect -/

/-- Go `Duration` bounds. -/
def maxDuration : Int := 2 ^ 63 - 1

/-- Go `Duration` lower bound. -/
def minDuration : Int := -(2 ^ 63)

/-- Go `Time.Sub` on instants given in nanoseconds since the zero `Time`:
the difference, saturated to the range of `Duration`. -/
def timeSub (t u : Int) : Int :=
  if t - u > maxDuration then maxDuration
  else if t - u < minDuration then minDuration
  else t - u

/-- One scripted `Connect` attempt: its outcome and how long the dial took. -/
structure Dial where
  ok : Bool
  took : Nat
deriving DecidableEq, Repr

/-- Observable steps of `Reconnect`. -/
inductive Step where
  | sleep (d : Int)
  | connect (ok : Bool)
  | handshake (username password : String)
deriving DecidableEq, Repr

/-- The `for` loop of `Reconnect`, run against a script of dial outcomes, from
clock reading `now` with the current `reconnectTimeout`.  Returns the session,
the clock and the steps taken once a dial succeeds; `none` when the script
ends with the loop still retrying. -/
def reconnectLoop (sc : StratumContext) : Int → Int → List Dial →
    Option (StratumContext × Int × List Step)
  | _, _, [] => none
  | reconnectTimeout, now, d :: rest =>
    let sleeps := decide (timeSub now sc.lastReconnectTime < reconnectTimeout)
    let now1 := if sleeps then now + reconnectTimeout else now
    let pre : List Step := if sleeps then [.sleep reconnectTimeout] else []
    match Connect sc sc.url d.ok with
    | (sc1, .ok _) => some (sc1, now1 + d.took, pre ++ [.connect true])
    | (_, _) =>
      match reconnectLoop sc (5 * Second) (now1 + d.took) rest with
      | none => none
      | some (sc2, now2, steps) => some (sc2, now2, pre ++ [.connect false] ++ steps)

/-- Go `Reconnect`.  `receiver` tells whether a goroutine is receiving on
`stopChan` (the unbuffered send blocks for ever otherwise, result `none`);
`dials` scripts the `Connect` attempts; `w1 r1 w2 r2` script the handshake. -/
def Reconnect (marshal : Json → Except String String) (sc : StratumContext)
    (receiver : Bool) (now : Int) (dials : List Dial)
    (w1 : Bool) (r1 : Except String Response) (w2 : Bool) (r2 : Except String Response) :
    Option (StratumContext × Int × List Step) :=
  if !receiver then none
  else
    let sc0 := { sc with Conn := none }
    match reconnectLoop sc0 (1 * Second) now dials with
    | none => none
    | some (sc1, now1, steps) =>
      let (sc2, _) := authorizeLocked marshal sc1 sc1.username sc1.password w1 r1 w2 r2
      some (sc2, now1, steps ++ [.handshake sc1.username sc1.password])

/-! ## Notions used to state the properties -/

/-- The duplicate test of `NotifyNewWork` in the words of the specification:
the new job id equals the current job's id, or is found among the outstanding
submitted-work ids. -/
def IsDuplicateJob (heap : Nat → Work) (sc : StratumContext) (a : Nat) : Prop :=
  (∃ cur, sc.Work = some cur ∧ (heap a).JobID = (heap cur).JobID) ∨
    SetItem.str (heap a).JobID ∈ sc.submittedWorkRequestIds

instance (heap : Nat → Work) (sc : StratumContext) (a : Nat) :
    Decidable (IsDuplicateJob heap sc a) :=
  match h : sc.Work with
  | none =>
    if hs : SetItem.str (heap a).JobID ∈ sc.submittedWorkRequestIds then isTrue (Or.inr hs)
    else isFalse (fun hd => hd.elim (fun ⟨_, hc, _⟩ => by rw [h] at hc; cases hc) hs)
  | some cur =>
    if hj : (heap a).JobID = (heap cur).JobID then isTrue (Or.inl ⟨cur, h, hj⟩)
    else if hs : SetItem.str (heap a).JobID ∈ sc.submittedWorkRequestIds then isTrue (Or.inr hs)
    else isFalse (fun hd => hd.elim
      (fun ⟨c, hc, hjc⟩ => by rw [h] at hc; injection hc with hc; subst hc; exact hj hjc) hs)

/-- The session state right after a successful `SubmitWork` of the Work at
address `a`, as a function of the state before and the line written. -/
def afterSubmit (heap : Nat → Work) (sc : StratumContext) (t : Transport) (a : Nat)
    (hash nonceStr line : String) : StratumContext :=
  { sc with
    id := (sc.id + 1) % 2 ^ 64
    Conn := some { t with sent := t.sent ++ [line ++ "\n"] }
    submittedWorkRequestIds := setAdd sc.submittedWorkRequestIds (.uint64 ((sc.id + 1) % 2 ^ 64))
    submitListeners := sc.submitListeners.map fun ch => ch ++
      [⟨[("id", .str sc.SessionID), ("job_id", .str (heap a).JobID),
         ("nonce", .str nonceStr), ("result", .str hash)], some a⟩]
    LastSubmittedWork := some a }

/-- The JSON-RPC object of a `submit` request as the specification gives it:
message id, method `submit`, and the parameters `id` (session id), `job_id`,
`nonce` (hex) and `result` (hash). -/
def submitRequestJson (msgId : Nat) (sessionID jobID nonce hash : String) : Json :=
  .obj [("id", .int (Int.ofNat msgId)), ("method", .str "submit"),
    ("params", .obj [("id", .str sessionID), ("job_id", .str jobID),
      ("nonce", .str nonce), ("result", .str hash)])]

/-- The submission event published for the Work at address `a`: the argument
map of the request and the work reference. -/
def submitEvent (sessionID jobID nonce hash : String) (a : Nat) : SubmitEvent :=
  ⟨[("id", .str sessionID), ("job_id", .str jobID), ("nonce", .str nonce),
    ("result", .str hash)], some a⟩

/-- Members of a JSON object (none for any other value). -/
def Json.members : Json → List (String × Json)
  | .obj kvs => kvs
  | _ => []

/-- The value at a position inside nested arrays, if there is one. -/
def Json.atPath : Json → List Nat → Option Json
  | j, [] => some j
  | .arr xs, i :: rest =>
    match xs[i]? with
    | some x => x.atPath rest
    | none => none
  | _, _ :: _ => none

/-- The string at a position, or the empty string. -/
def stringAt (res : Json) (path : List Nat) : String :=
  match res.atPath path with
  | some (.str s) => s
  | _ => ""

/-- The int64 integer at a position, or 0. -/
def intAt (res : Json) (path : List Nat) : Int :=
  match res.atPath path with
  | some (.int i) => if -(2 ^ 63) ≤ i ∧ i < 2 ^ 63 then i else 0
  | _ => 0

/-- Successive `GetIndex` calls along a list of indices. -/
def getPath (j : Json) (path : List Nat) : Json :=
  path.foldl Json.GetIndex j

/-! ## Sample inputs -/

/-- A notify payload with an 80-byte blob and target ffffffff. -/
def argsGood : List (String × Json) :=
  [("job_id", .str "job-1"), ("blob", .str (String.mk (List.replicate 160 'a'))),
   ("target", .str "ffffffff")]

/-- The Work decoded from `argsGood`: 80 bytes 0xaa, target 0xffffffff. -/
def workGood : Work :=
  builtWork "job-1" 160 (List.replicate 80 170) 4294967295

/-- A notify payload with an 80-byte blob and target 00000000. -/
def argsZeroTarget : List (String × Json) :=
  [("job_id", .str "job-1"), ("blob", .str (String.mk (List.replicate 160 'a'))),
   ("target", .str "00000000")]

/-- A notify payload with a 100-byte blob (200 hex digits, every byte 0x11)
and target ffffffff. -/
def argsLongBlob : List (String × Json) :=
  [("job_id", .str "job-1"), ("blob", .str (String.mk (List.replicate 200 '1'))),
   ("target", .str "ffffffff")]

/-- A serializer that succeeds on every value; it instantiates `marshal` in
the concrete runs below, where the text written is not inspected. -/
def sampleMarshal : Json → Except String String :=
  fun _ => .ok "<request>"

/-- A serializer that writes just the method name of a request object; it
shows which request a concrete run puts on the wire. -/
def methodMarshal : Json → Except String String :=
  fun j =>
    match mapGet j.members "method" with
    | some (.str m) => .ok m
    | _ => .ok "?"

/-- A freshly connected, unauthenticated session. -/
def scConnected : StratumContext :=
  (Connect New "pool.example:3333" true).1

/-- A reply `{"id":1,"result":true,"error":null}`. -/
def replyTrue : Response :=
  ⟨some 1, none, "", some (.bool true), none⟩

/-- A subscribe reply whose result is the empty array. -/
def replyEmptyArray : Response :=
  ⟨some 2, none, "", some (.arr []), none⟩

/-- A subscribe result of the fixed shape. -/
def subscribeResult : Json :=
  .arr [.arr [.arr [.str "mining.notify", .str "n1"],
              .arr [.str "mining.set_difficulty", .str "d1"],
              .str "08000002", .int 4]]

/-- The request `CallLocked` builds for `mining.authorize` on a new session. -/
def requestSample : Request :=
  NewRequest (some 1) "mining.authorize" (.arr [.str "user", .str "pass"])

/-- A heap on which every address holds a Work with the same content. -/
def heapSample : Nat → Work :=
  fun _ => { NewWork with JobID := "job-1" }

/-- A connected session with one registered work listener. -/
def scListening : StratumContext :=
  { scConnected with workListeners := [[]] }

/-- A subscribe reply of the fixed shape. -/
def replySubscribe : Response :=
  ⟨some 2, none, "", some subscribeResult, none⟩

/-- A session after a complete handshake as user/pass. -/
def scAuthorized : StratumContext :=
  (authorizeLocked sampleMarshal scConnected "user" "pass" true (.ok replyTrue) true
    (.ok replySubscribe)).1

/-- A clock reading of the present era, in nanoseconds since the zero `Time`
(1 January of year 1). -/
def clockNow : Int := 63900000000 * Second

/-! ## Hex decoding facts -/

theorem hexVal_lt (c : Char) (v : Nat) (h : hexVal c = some v) : v < 16 := by
  unfold hexVal at h
  split at h
  · rename_i hc
    have h9 : c.toNat ≤ 57 := hc.2
    injection h with h; omega
  · split at h
    · rename_i hc
      have h9 : c.toNat ≤ 102 := hc.2
      injection h with h; omega
    · split at h
      · rename_i hc
        have h9 : c.toNat ≤ 70 := hc.2
        injection h with h; omega
      · cases h

theorem hexVal_ascii (c : Char) (h : (hexVal c).isSome = true) : c.toNat ≤ 127 := by
  unfold hexVal at h
  split at h
  · rename_i hc
    have h9 : c.toNat ≤ 57 := hc.2
    omega
  · split at h
    · rename_i hc
      have h9 : c.toNat ≤ 102 := hc.2
      omega
    · split at h
      · rename_i hc
        have h9 : c.toNat ≤ 70 := hc.2
        omega
      · simp at h

theorem utf8Size_of_ascii (c : Char) (h : c.toNat ≤ 127) : c.utf8Size = 1 := by
  unfold Char.utf8Size
  have h1 : c.val ≤ UInt32.ofNatCore 127 (by decide) := h
  exact if_pos h1

theorem utf8ByteSize_go_of_hex (cs : List Char) (h : ∀ c ∈ cs, (hexVal c).isSome = true) :
    String.utf8ByteSize.go cs = cs.length := by
  induction cs with
  | nil => rfl
  | cons c cs ih =>
    have hc : c.utf8Size = 1 := utf8Size_of_ascii c (hexVal_ascii c (h c (List.mem_cons_self c cs)))
    have ht := ih (fun d hd => h d (List.mem_cons_of_mem c hd))
    simp only [String.utf8ByteSize.go, List.length_cons, hc, ht]

/-- For a string of hex digits the byte length `len(s)` is the number of
characters. -/
theorem utf8ByteSize_of_hex (s : String) (h : IsHex s) : s.utf8ByteSize = s.length := by
  cases s with
  | mk cs => exact utf8ByteSize_go_of_hex cs h

/-- Pairwise decoding of an even-length list of hex digits succeeds, yielding
half as many bytes, each below 256. -/
theorem decodePairs_of_hex : ∀ (n : Nat) (cs : List Char), cs.length = 2 * n →
    (∀ c ∈ cs, (hexVal c).isSome = true) →
    ∃ bs, decodePairs cs = some bs ∧ bs.length = n ∧ ∀ b ∈ bs, b < 256
  | 0, cs, hl, _ => by
    have : cs = [] := List.length_eq_zero.mp (by omega)
    subst this
    exact ⟨[], rfl, rfl, by simp⟩
  | n + 1, cs, hl, hh => by
    match cs, hl, hh with
    | a :: b :: rest, hl, hh =>
      have hlr : rest.length = 2 * n := by simp at hl; omega
      obtain ⟨tl, htl, hlen, hlt⟩ := decodePairs_of_hex n rest hlr
        (fun c hc => hh c (List.mem_cons_of_mem a (List.mem_cons_of_mem b hc)))
      have ha := hh a (List.mem_cons_self a _)
      have hb := hh b (List.mem_cons_of_mem a (List.mem_cons_self b _))
      obtain ⟨hi, hhi⟩ := Option.isSome_iff_exists.mp ha
      obtain ⟨lo, hlo⟩ := Option.isSome_iff_exists.mp hb
      refine ⟨(16 * hi + lo) :: tl, ?_, by simp [hlen], ?_⟩
      · simp [decodePairs, hhi, hlo, htl]
      · intro x hx
        rcases List.mem_cons.mp hx with rfl | hx
        · have := hexVal_lt a hi hhi
          have := hexVal_lt b lo hlo
          omega
        · exact hlt x hx

/-- Every decoded byte is below 256. -/
theorem decodePairs_lt : ∀ (cs : List Char) (bs : List Nat), decodePairs cs = some bs →
    ∀ b ∈ bs, b < 256
  | [], bs, h => by
    simp [decodePairs] at h; subst h; simp
  | [_], bs, h => by simp [decodePairs] at h
  | a :: b :: rest, bs, h => by
    simp only [decodePairs] at h
    split at h
    · rename_i hi lo tl hhi hlo htl
      injection h with h
      subst h
      intro x hx
      rcases List.mem_cons.mp hx with rfl | hx
      · have := hexVal_lt a hi hhi
        have := hexVal_lt b lo hlo
        omega
      · exact decodePairs_lt rest tl htl x hx
    · cases h

/-- Decoding succeeds only on hex digits, and yields one byte per two
characters. -/
theorem decodePairs_some : ∀ (cs : List Char) (bs : List Nat), decodePairs cs = some bs →
    cs.length = 2 * bs.length ∧ ∀ c ∈ cs, (hexVal c).isSome = true
  | [], bs, h => by
    simp [decodePairs] at h; subst h; simp
  | [_], bs, h => by simp [decodePairs] at h
  | a :: b :: rest, bs, h => by
    simp only [decodePairs] at h
    split at h
    · rename_i hi lo tl hhi hlo htl
      injection h with h
      subst h
      obtain ⟨h1, h2⟩ := decodePairs_some rest tl htl
      refine ⟨by simp [h1]; omega, ?_⟩
      intro c hc
      rcases List.mem_cons.mp hc with rfl | hc
      · simp [hhi]
      · rcases List.mem_cons.mp hc with rfl | hc
        · simp [hlo]
        · exact h2 c hc
    · cases h

theorem HexToBin_ok_iff (hex : String) (size : Nat) (bs : List Nat) :
    HexToBin hex size = .ok bs ↔ decodePairs hex.data = some bs := by
  unfold HexToBin
  cases h : decodePairs hex.data with
  | none => simp
  | some cs =>
    constructor
    · intro h1; injection h1 with h1; rw [h1]
    · intro h1; injection h1 with h1; rw [h1]

theorem HexToBin_of_hex (hex : String) (size : Nat) (h : IsHex hex) (he : hex.length % 2 = 0) :
    ∃ bs, HexToBin hex size = .ok bs ∧ bs.length = hex.length / 2 ∧ ∀ b ∈ bs, b < 256 := by
  obtain ⟨bs, h1, h2, h3⟩ := decodePairs_of_hex (hex.length / 2) hex.data
    (by show hex.length = _; omega) h
  exact ⟨bs, (HexToBin_ok_iff hex size bs).mpr h1, h2, h3⟩

theorem leUint32_lt (b0 b1 b2 b3 : Nat) (h : ∀ b ∈ [b0, b1, b2, b3], b < 256) :
    b0 + 256 * b1 + 65536 * b2 + 16777216 * b3 < 2 ^ 32 := by
  have h0 := h b0 (by simp)
  have h1 := h b1 (by simp)
  have h2 := h b2 (by simp)
  have h3 := h b3 (by simp)
  omega

/-! ## ParseWork -/

/-- Unfolding of `ParseWork` once the three map entries are known to be strings
and the blob consists of hex digits. -/
theorem ParseWork_unfold (args : List (String × Json)) (jobId hexBlob targetStr : String)
    (hj : mapGet args "job_id" = some (.str jobId))
    (hb : mapGet args "blob" = some (.str hexBlob))
    (ht : mapGet args "target" = some (.str targetStr))
    (hhex : IsHex hexBlob) :
    ParseWork args =
      if hexBlob.length % 2 ≠ 0 ∨ (hexBlob.length / 2 < 40 ∧ hexBlob.length ≠ 0)
          ∨ hexBlob.length / 2 > 128 then
        .error "JSON invalid blob length"
      else if hexBlob.length = 0 then
        .error "Blob length was 0?"
      else
        match HexToBin hexBlob hexBlob.length with
        | .error e => .error e
        | .ok blob =>
          match littleEndianUint32
              (match HexToBin targetStr 8 with
                | .ok bs => bs
                | .error _ => []) with
          | none => .panic "index out of range"
          | some t32 =>
            if t32 = 0 then .panic "integer divide by zero"
            else .ok (builtWork jobId hexBlob.length blob t32) := by
  unfold ParseWork
  simp only [hj, hb, ht, utf8ByteSize_of_hex hexBlob hhex]
  rfl

/-- With a hex blob of acceptable length and a target decoding to a non-zero
integer, `ParseWork` returns the work record built from the decoded blob. -/
theorem ParseWork_valid (args : List (String × Json)) (jobId hexBlob targetStr : String)
    (b0 b1 b2 b3 : Nat)
    (hj : mapGet args "job_id" = some (.str jobId))
    (hb : mapGet args "blob" = some (.str hexBlob))
    (ht : mapGet args "target" = some (.str targetStr))
    (hhex : IsHex hexBlob)
    (htgt : HexToBin targetStr 8 = .ok [b0, b1, b2, b3])
    (hnz : b0 + 256 * b1 + 65536 * b2 + 16777216 * b3 ≠ 0)
    (hL : hexBlob.length % 2 = 0 ∧ hexBlob.length ≠ 0 ∧ 40 ≤ hexBlob.length / 2
      ∧ hexBlob.length / 2 ≤ 128) :
    ∃ blob, HexToBin hexBlob hexBlob.length = .ok blob ∧ blob.length = hexBlob.length / 2 ∧
      ParseWork args = .ok (builtWork jobId hexBlob.length blob
        (b0 + 256 * b1 + 65536 * b2 + 16777216 * b3)) := by
  obtain ⟨blob, hblob, hlen, _⟩ := HexToBin_of_hex hexBlob hexBlob.length hhex hL.1
  refine ⟨blob, hblob, hlen, ?_⟩
  have hlt := leUint32_lt b0 b1 b2 b3
    (decodePairs_lt targetStr.data _ ((HexToBin_ok_iff targetStr 8 _).mp htgt))
  have hmod : (b0 + 256 * b1 + 65536 * b2 + 16777216 * b3) % 2 ^ 32
      = b0 + 256 * b1 + 65536 * b2 + 16777216 * b3 := Nat.mod_eq_of_lt hlt
  rw [ParseWork_unfold args jobId hexBlob targetStr hj hb ht hhex]
  have c1 : ¬ (hexBlob.length % 2 ≠ 0 ∨ (hexBlob.length / 2 < 40 ∧ hexBlob.length ≠ 0)
      ∨ hexBlob.length / 2 > 128) := by omega
  rw [if_neg c1, if_neg hL.2.1, hblob, htgt]
  simp only [littleEndianUint32, hmod, if_neg hnz]

/-- With a hex blob of unacceptable length `ParseWork` returns an error. -/
theorem ParseWork_invalid (args : List (String × Json)) (jobId hexBlob targetStr : String)
    (hj : mapGet args "job_id" = some (.str jobId))
    (hb : mapGet args "blob" = some (.str hexBlob))
    (ht : mapGet args "target" = some (.str targetStr))
    (hhex : IsHex hexBlob)
    (hL : ¬ (hexBlob.length % 2 = 0 ∧ hexBlob.length ≠ 0 ∧ 40 ≤ hexBlob.length / 2
      ∧ hexBlob.length / 2 ≤ 128)) :
    ∃ msg, ParseWork args = .error msg := by
  rw [ParseWork_unfold args jobId hexBlob targetStr hj hb ht hhex]
  by_cases c1 : hexBlob.length % 2 ≠ 0 ∨ (hexBlob.length / 2 < 40 ∧ hexBlob.length ≠ 0)
      ∨ hexBlob.length / 2 > 128
  · exact ⟨_, if_pos c1⟩
  · have c2 : hexBlob.length = 0 := by omega
    rw [if_neg c1, if_pos c2]
    exact ⟨_, rfl⟩

/-- C1. For a params map whose job_id is a string, whose blob is a string of
hex digits of length L and whose target is a valid 8-hex-digit string decoding
to a non-zero integer, ParseWork returns a Work exactly when L is even, L is
not 0 and 40 ≤ L/2 ≤ 128; in every other case it returns an error (no Work,
no panic). -/
theorem ParseWork_succeeds_iff (args : List (String × Json)) (jobId hexBlob targetStr : String)
    (b0 b1 b2 b3 : Nat)
    (hj : mapGet args "job_id" = some (.str jobId))
    (hb : mapGet args "blob" = some (.str hexBlob))
    (ht : mapGet args "target" = some (.str targetStr))
    (hhex : IsHex hexBlob)
    (htl : targetStr.length = 8)
    (htgt : HexToBin targetStr 8 = .ok [b0, b1, b2, b3])
    (hnz : b0 + 256 * b1 + 65536 * b2 + 16777216 * b3 ≠ 0) :
    ((∃ w, ParseWork args = .ok w) ↔
      (hexBlob.length % 2 = 0 ∧ hexBlob.length ≠ 0 ∧ 40 ≤ hexBlob.length / 2
        ∧ hexBlob.length / 2 ≤ 128)) ∧
    ((¬ ∃ w, ParseWork args = .ok w) → ∃ msg, ParseWork args = .error msg) := by
  have _ := htl
  by_cases hL : hexBlob.length % 2 = 0 ∧ hexBlob.length ≠ 0 ∧ 40 ≤ hexBlob.length / 2
      ∧ hexBlob.length / 2 ≤ 128
  · obtain ⟨blob, _, _, hw⟩ :=
      ParseWork_valid args jobId hexBlob targetStr b0 b1 b2 b3 hj hb ht hhex htgt hnz hL
    exact ⟨⟨fun _ => hL, fun _ => ⟨_, hw⟩⟩, fun hno => absurd ⟨_, hw⟩ hno⟩
  · obtain ⟨msg, hmsg⟩ := ParseWork_invalid args jobId hexBlob targetStr hj hb ht hhex hL
    refine ⟨⟨fun ⟨w, hw⟩ => ?_, fun h => absurd h hL⟩, fun _ => ⟨msg, hmsg⟩⟩
    rw [hmsg] at hw
    cases hw

theorem ParseWork_succeeds_iff_witness :
    ((∃ w, ParseWork argsGood = .ok w) ↔
      ((String.mk (List.replicate 160 'a')).length % 2 = 0
        ∧ (String.mk (List.replicate 160 'a')).length ≠ 0
        ∧ 40 ≤ (String.mk (List.replicate 160 'a')).length / 2
        ∧ (String.mk (List.replicate 160 'a')).length / 2 ≤ 128)) ∧
    ((¬ ∃ w, ParseWork argsGood = .ok w) → ∃ msg, ParseWork argsGood = .error msg) :=
  ParseWork_succeeds_iff argsGood "job-1" (String.mk (List.replicate 160 'a')) "ffffffff"
    255 255 255 255 rfl rfl rfl (by decide) (by decide) rfl (by decide)

/-- C2. For a params map with string job_id, hex blob of length L and a target
whose eight hex digits decode to the bytes b0 b1 b2 b3 with
t = b0 + 256 b1 + 65536 b2 + 16777216 b3 non-zero: every Work returned by
ParseWork has Target = (2^64 - 1) / ((2^32 - 1) / t) (truncating divisions, the
value fits 64 bits), Size = L / 2 and JobID equal to the input job_id; and for
target ffffffff with a 160-character blob ParseWork does return a Work, with
Target = 2^64 - 1 and Size = 80. -/
theorem ParseWork_target_size_jobid (args : List (String × Json))
    (jobId hexBlob targetStr : String) (b0 b1 b2 b3 : Nat)
    (hj : mapGet args "job_id" = some (.str jobId))
    (hb : mapGet args "blob" = some (.str hexBlob))
    (ht : mapGet args "target" = some (.str targetStr))
    (hhex : IsHex hexBlob)
    (htgt : HexToBin targetStr 8 = .ok [b0, b1, b2, b3])
    (hnz : b0 + 256 * b1 + 65536 * b2 + 16777216 * b3 ≠ 0) :
    (∀ w, ParseWork args = .ok w →
      w.Target = (2 ^ 64 - 1) / ((2 ^ 32 - 1) / (b0 + 256 * b1 + 65536 * b2 + 16777216 * b3))
      ∧ w.Target < 2 ^ 64
      ∧ w.Size = hexBlob.length / 2
      ∧ w.JobID = jobId) ∧
    (targetStr = "ffffffff" → hexBlob.length = 160 →
      ∃ w, ParseWork args = .ok w ∧ w.Target = 2 ^ 64 - 1 ∧ w.Size = 80 ∧ w.JobID = jobId) := by
  have key : ∀ w, ParseWork args = .ok w →
      w.Target = (2 ^ 64 - 1) / ((2 ^ 32 - 1) / (b0 + 256 * b1 + 65536 * b2 + 16777216 * b3))
      ∧ w.Target < 2 ^ 64
      ∧ w.Size = hexBlob.length / 2
      ∧ w.JobID = jobId := by
    intro w hw
    by_cases hL : hexBlob.length % 2 = 0 ∧ hexBlob.length ≠ 0 ∧ 40 ≤ hexBlob.length / 2
        ∧ hexBlob.length / 2 ≤ 128
    · obtain ⟨blob, _, _, hv⟩ :=
        ParseWork_valid args jobId hexBlob targetStr b0 b1 b2 b3 hj hb ht hhex htgt hnz hL
      rw [hv] at hw
      injection hw with hw
      subst hw
      refine ⟨rfl, ?_, rfl, rfl⟩
      show MaxUint64 / (0xFFFFFFFF / (b0 + 256 * b1 + 65536 * b2 + 16777216 * b3)) < 2 ^ 64
      exact Nat.lt_of_le_of_lt (Nat.div_le_self _ _) (by decide)
    · obtain ⟨msg, hmsg⟩ := ParseWork_invalid args jobId hexBlob targetStr hj hb ht hhex hL
      rw [hmsg] at hw
      cases hw
  refine ⟨key, ?_⟩
  intro hts hlen
  subst hts
  have hL : hexBlob.length % 2 = 0 ∧ hexBlob.length ≠ 0 ∧ 40 ≤ hexBlob.length / 2
      ∧ hexBlob.length / 2 ≤ 128 := by omega
  obtain ⟨blob, _, _, hv⟩ :=
    ParseWork_valid args jobId hexBlob "ffffffff" b0 b1 b2 b3 hj hb ht hhex htgt hnz hL
  have hbytes : [b0, b1, b2, b3] = [255, 255, 255, 255] := by
    have h1 : HexToBin "ffffffff" 8 = .ok [255, 255, 255, 255] := rfl
    rw [h1] at htgt
    injection htgt with h2
    exact h2.symm
  injection hbytes with e0 hbytes
  injection hbytes with e1 hbytes
  injection hbytes with e2 hbytes
  injection hbytes with e3 _
  subst e0 e1 e2 e3
  refine ⟨_, hv, ?_, ?_, rfl⟩
  · show MaxUint64 / (0xFFFFFFFF / (255 + 256 * 255 + 65536 * 255 + 16777216 * 255)) = 2 ^ 64 - 1
    decide
  · show hexBlob.length / 2 = 80
    omega

theorem ParseWork_target_size_jobid_witness :
    (∀ w, ParseWork argsGood = .ok w →
      w.Target = (2 ^ 64 - 1) / ((2 ^ 32 - 1) / (255 + 256 * 255 + 65536 * 255 + 16777216 * 255))
      ∧ w.Target < 2 ^ 64
      ∧ w.Size = (String.mk (List.replicate 160 'a')).length / 2
      ∧ w.JobID = "job-1") ∧
    ("ffffffff" = "ffffffff" → (String.mk (List.replicate 160 'a')).length = 160 →
      ∃ w, ParseWork argsGood = .ok w ∧ w.Target = 2 ^ 64 - 1 ∧ w.Size = 80 ∧ w.JobID = "job-1") :=
  ParseWork_target_size_jobid argsGood "job-1" (String.mk (List.replicate 160 'a')) "ffffffff"
    255 255 255 255 rfl rfl rfl (by decide) rfl (by decide)

/-- A target that decodes to the integer 0 makes `ParseWork` panic on the
division, for every acceptable job id and blob. -/
theorem ParseWork_zero_target (args : List (String × Json)) (jobId hexBlob targetStr : String)
    (hj : mapGet args "job_id" = some (.str jobId))
    (hb : mapGet args "blob" = some (.str hexBlob))
    (ht : mapGet args "target" = some (.str targetStr))
    (hhex : IsHex hexBlob)
    (htgt : HexToBin targetStr 8 = .ok [0, 0, 0, 0])
    (hL : hexBlob.length % 2 = 0 ∧ hexBlob.length ≠ 0 ∧ 40 ≤ hexBlob.length / 2
      ∧ hexBlob.length / 2 ≤ 128) :
    ParseWork args = .panic "integer divide by zero" := by
  obtain ⟨blob, hblob, _, _⟩ := HexToBin_of_hex hexBlob hexBlob.length hhex hL.1
  rw [ParseWork_unfold args jobId hexBlob targetStr hj hb ht hhex]
  have c1 : ¬ (hexBlob.length % 2 ≠ 0 ∨ (hexBlob.length / 2 < 40 ∧ hexBlob.length ≠ 0)
      ∨ hexBlob.length / 2 > 128) := by omega
  rw [if_neg c1, if_neg hL.2.1, hblob, htgt]
  rfl

/-- C3. On the notify payload with an 80-byte blob and target 00000000 the
code does not return a validation error: ParseWork panics with an integer
division by zero (no error value, no Work). -/
theorem ParseWork_zero_target_panics :
    ParseWork argsZeroTarget = .panic "integer divide by zero"
      ∧ (ParseWork argsZeroTarget).isError = false := by
  have h : ParseWork argsZeroTarget = .panic "integer divide by zero" := by rfl
  exact ⟨h, by rw [h]; rfl⟩

/-- The buffer `ParseWork` fills always has 96 bytes. -/
theorem builtWork_data_length (jobId : String) (blobLen : Nat) (blob : List Nat) (t : Nat) :
    (builtWork jobId blobLen blob t).Data.length = 96 := by
  simp only [builtWork, zeroFrom, goCopy, NewWork, List.length_append, List.length_take,
    List.length_drop, List.length_replicate]
  omega

/-- The buffer starts with the decoded blob, cut at 96 bytes. -/
theorem builtWork_data_head (jobId : String) (blobLen : Nat) (blob : List Nat) (t : Nat) :
    (builtWork jobId blobLen blob t).Data.take blob.length = blob.take 96 := by
  simp only [builtWork, zeroFrom, goCopy, NewWork, List.length_replicate]
  by_cases hb : blob.length ≤ 96
  · have e0 : List.take 96 blob = blob := List.take_of_length_le hb
    rw [e0, List.take_append_of_le_length (by simp), List.take_take, Nat.min_self,
      List.take_append_of_le_length (Nat.le_refl _), List.take_of_length_le (Nat.le_refl _)]
  · have e1 : List.drop blob.length (List.replicate 96 0) = [] :=
      List.drop_eq_nil_of_le (by simp; omega)
    have e2 : (List.take 96 blob).length = 96 := by simp; omega
    rw [e1, List.append_nil, List.take_take]
    have e3 : min blob.length 96 = 96 := by omega
    rw [e3, List.take_append_eq_append_take, e2]
    have e4 : List.take (blob.length - 96) (List.replicate (96 - blob.length) 0) = [] := by
      have : 96 - blob.length = 0 := by omega
      rw [this]; simp
    rw [e4, List.append_nil, List.take_of_length_le (by omega)]

/-- Every byte of the buffer at an index from the blob length up to 96 is 0. -/
theorem builtWork_data_tail (jobId : String) (blobLen : Nat) (blob : List Nat) (t : Nat)
    (i : Nat) (h1 : blob.length ≤ i) (h2 : i < 96) :
    (builtWork jobId blobLen blob t).Data[i]? = some 0 := by
  simp only [builtWork, zeroFrom, goCopy, NewWork, List.length_replicate]
  have hl : (List.take blob.length (List.take 96 blob ++
      List.drop blob.length (List.replicate 96 0))).length = blob.length := by
    simp only [List.length_take, List.length_append, List.length_drop, List.length_replicate]
    omega
  rw [List.getElem?_append_right (by omega), hl]
  simp only [List.length_append, List.length_take, List.length_drop, List.length_replicate]
  rw [List.getElem?_replicate]
  have : i - blob.length < min 96 blob.length + (96 - blob.length) - blob.length := by omega
  simp [this]

/-- Every successful run of `ParseWork` went through all its checks: the three
entries are strings, the blob is an even, non-empty run of hex digits decoding
to between 40 and 128 bytes, and the result is the record built from them. -/
theorem ParseWork_ok_inv (args : List (String × Json)) (w : Work)
    (hw : ParseWork args = .ok w) :
    ∃ jobId hexBlob blob t,
      mapGet args "job_id" = some (.str jobId) ∧ mapGet args "blob" = some (.str hexBlob) ∧
      IsHex hexBlob ∧ HexToBin hexBlob hexBlob.length = .ok blob ∧
      hexBlob.length = 2 * blob.length ∧ 40 ≤ blob.length ∧ blob.length ≤ 128 ∧
      w = builtWork jobId hexBlob.length blob t := by
  unfold ParseWork at hw
  split at hw
  · rename_i jobId hj
    split at hw
    · rename_i hexBlob hb
      simp only at hw
      split at hw
      · cases hw
      · rename_i hc1
        split at hw
        · cases hw
        · rename_i hc2
          split at hw
          · cases hw
          · rename_i blob hblob
            have hdec := (HexToBin_ok_iff hexBlob _ blob).mp hblob
            obtain ⟨hlen, hhex⟩ := decodePairs_some hexBlob.data blob hdec
            have hbytes := utf8ByteSize_of_hex hexBlob hhex
            have hlen2 : hexBlob.length = 2 * blob.length := hlen
            split at hw
            · rename_i targetStr ht
              split at hw
              · cases hw
              · rename_i t32 ht32
                split at hw
                · cases hw
                · injection hw with hw
                  rw [hbytes] at hc1 hw hblob
                  refine ⟨jobId, hexBlob, blob, t32, hj, hb, hhex, hblob, hlen2, ?_, ?_, ?_⟩
                  · omega
                  · omega
                  · rw [← hw]; rfl
            · cases hw
    · cases hw
  · cases hw

/-- C4 (as amended). For every Work returned by a successful ParseWork, the
Data buffer has length exactly 96, Size is the decoded blob length, between 40
and 128 (so it can exceed 96), every byte of Data at an index i with
Size ≤ i < 96 is zero, and when Size ≤ 96 the first Size bytes of Data are the
decoded blob bytes in order. -/
theorem ParseWork_buffer_invariant (args : List (String × Json)) (w : Work)
    (hw : ParseWork args = .ok w) :
    w.Data.length = 96 ∧ 40 ≤ w.Size ∧ w.Size ≤ 128 ∧
    (∀ i, w.Size ≤ i → i < 96 → w.Data[i]? = some 0) ∧
    (∃ hexBlob blob, mapGet args "blob" = some (.str hexBlob) ∧
      HexToBin hexBlob hexBlob.length = .ok blob ∧
      w.Size = hexBlob.length / 2 ∧ w.Size = blob.length ∧
      (w.Size ≤ 96 → w.Data.take w.Size = blob)) := by
  obtain ⟨jobId, hexBlob, blob, t, _, hb, _, hblob, hlen, h40, h128, hwb⟩ :=
    ParseWork_ok_inv args w hw
  subst hwb
  have hs : (builtWork jobId hexBlob.length blob t).Size = blob.length := by
    show hexBlob.length / 2 = blob.length
    omega
  refine ⟨builtWork_data_length _ _ _ _, by omega, by omega, ?_, hexBlob, blob, hb, hblob,
    rfl, hs, ?_⟩
  · intro i h1 h2
    rw [hs] at h1
    exact builtWork_data_tail _ _ _ _ i h1 h2
  · intro h96
    rw [hs] at h96 ⊢
    rw [builtWork_data_head]
    exact List.take_of_length_le h96

theorem ParseWork_buffer_invariant_witness :
    workGood.Data.length = 96 ∧ 40 ≤ workGood.Size ∧ workGood.Size ≤ 128 ∧
    (∀ i, workGood.Size ≤ i → i < 96 → workGood.Data[i]? = some 0) :=
  have h := ParseWork_buffer_invariant argsGood workGood rfl
  ⟨h.1, h.2.1, h.2.2.1, h.2.2.2.1⟩

/-- C4 (counterexample). On the notify payload with a 100-byte blob (every byte
0x11) and target ffffffff, ParseWork returns a Work whose Size is 100, above
96, with a 96-byte buffer. -/
theorem ParseWork_long_blob_exceeds_buffer :
    ∃ w, ParseWork argsLongBlob = .ok w ∧ w.Size = 100 ∧ ¬ w.Size ≤ 96
      ∧ w.Data.length = 96
      ∧ HexToBin (String.mk (List.replicate 200 '1')) 200 = .ok (List.replicate 100 17) :=
  ⟨_, rfl, rfl, by decide, rfl, rfl⟩

/-! ## JsonRPCString -/

/-- What `JsonRPCString` returns in terms of the marshalled object. -/
theorem JsonRPCString_eq (marshal : Json → Except String String) (r : Request) :
    r.JsonRPCString marshal =
      match marshal (.obj [("id", idJson r.MessageID), ("method", .str r.RemoteMethod),
          ("params", r.Parameters)]) with
      | .error e => .error e
      | .ok b => .ok (b ++ "\n") := rfl

/-- C7. For the authorize request with id 1, the line JsonRPCString returns is
the serialization of an object with exactly the three members id, method and
params, followed by a newline; there is no jsonrpc member, although the
payload map the function fills in has one. -/
theorem JsonRPCString_omits_jsonrpc :
    requestSample.toJson =
        .obj [("id", .int 1), ("method", .str "mining.authorize"),
          ("params", .arr [.str "user", .str "pass"])]
      ∧ (∀ marshal : Json → Except String String,
          requestSample.JsonRPCString marshal =
            match marshal (.obj [("id", .int 1), ("method", .str "mining.authorize"),
                ("params", .arr [.str "user", .str "pass"])]) with
            | .error e => .error e
            | .ok b => .ok (b ++ "\n"))
      ∧ requestSample.toJson.members.length = 3
      ∧ mapGet requestSample.toJson.members "jsonrpc" = none
      ∧ mapGet requestSample.payload "jsonrpc" = some (.str "2.0") :=
  ⟨rfl, fun _ => rfl, rfl, rfl, rfl⟩

/-! ## NotifyNewWork -/

theorem setHas_iff (s : List SetItem) (x : SetItem) : setHas s x = true ↔ x ∈ s := by
  simp [setHas]

/-- The branch condition of `NotifyNewWork` is the duplicate test. -/
theorem NotifyNewWork_cond (heap : Nat → Work) (sc : StratumContext) (a : Nat) :
    ((match sc.Work with
      | some cur => decide ((heap a).JobID = (heap cur).JobID)
      | none => false) || setHas sc.submittedWorkRequestIds (.str (heap a).JobID)) = true
    ↔ IsDuplicateJob heap sc a := by
  unfold IsDuplicateJob
  cases hW : sc.Work with
  | none => simp [setHas]
  | some cur => simp [setHas]

/-- A duplicate job closes the transport and changes nothing else but the
`connected` flag. -/
theorem NotifyNewWork_dup (heap : Nat → Work) (sc : StratumContext) (a : Nat) (t : Transport)
    (hc : sc.Conn = some t) (hd : IsDuplicateJob heap sc a) :
    NotifyNewWork heap sc (some a) =
      ({ sc with connected := false, Conn := some { t with closed := true } }, .ok ()) := by
  have h := (NotifyNewWork_cond heap sc a).mpr hd
  simp only [NotifyNewWork, h, if_true, StratumContext.Close, hc]

/-- A fresh job becomes the current work and is sent to every listener. -/
theorem NotifyNewWork_fresh (heap : Nat → Work) (sc : StratumContext) (a : Nat)
    (hd : ¬ IsDuplicateJob heap sc a) :
    NotifyNewWork heap sc (some a) =
      ({ sc with
          Work := some a
          workListeners := sc.workListeners.map fun ch => ch ++ [some a] }, .ok ()) := by
  have h : ¬ ((match sc.Work with
      | some cur => decide ((heap a).JobID = (heap cur).JobID)
      | none => false) || setHas sc.submittedWorkRequestIds (.str (heap a).JobID)) = true :=
    fun h => hd ((NotifyNewWork_cond heap sc a).mp h)
  simp only [NotifyNewWork, h, if_false]
  rfl

/-- C5. For every session state holding a transport and every decoded Work w
(at address a): if w.JobID equals the JobID of the current Work or is found
among the outstanding submitted-work ids, NotifyNewWork closes the transport,
leaves the current Work unchanged and sends nothing to any work listener;
otherwise the current Work becomes w and w is appended exactly once to every
registered work listener.  Consequently, for a second Work with the same
job_id notified right after, the second call always closes the transport and
publishes nothing, so that a fresh job followed by its duplicate publishes
exactly one work event on every listener. -/
theorem NotifyNewWork_duplicate_detection (heap : Nat → Work) (sc : StratumContext)
    (a b : Nat) (t : Transport) (hc : sc.Conn = some t)
    (hab : (heap b).JobID = (heap a).JobID) :
    (IsDuplicateJob heap sc a →
      (NotifyNewWork heap sc (some a)).1.Conn = some { t with closed := true }
      ∧ (NotifyNewWork heap sc (some a)).1.Work = sc.Work
      ∧ (NotifyNewWork heap sc (some a)).1.workListeners = sc.workListeners) ∧
    (¬ IsDuplicateJob heap sc a →
      (NotifyNewWork heap sc (some a)).1.Work = some a
      ∧ (NotifyNewWork heap sc (some a)).1.workListeners
          = sc.workListeners.map (fun ch => ch ++ [some a])
      ∧ (NotifyNewWork heap sc (some a)).1.Conn = sc.Conn) ∧
    ((NotifyNewWork heap (NotifyNewWork heap sc (some a)).1 (some b)).1.Conn
        = some { t with closed := true }
      ∧ (NotifyNewWork heap (NotifyNewWork heap sc (some a)).1 (some b)).1.Work
        = (NotifyNewWork heap sc (some a)).1.Work
      ∧ (NotifyNewWork heap (NotifyNewWork heap sc (some a)).1 (some b)).1.workListeners
        = (NotifyNewWork heap sc (some a)).1.workListeners) ∧
    (¬ IsDuplicateJob heap sc a →
      (NotifyNewWork heap (NotifyNewWork heap sc (some a)).1 (some b)).1.workListeners
        = sc.workListeners.map (fun ch => ch ++ [some a])) := by
  have hsecond : ∀ sc1 : StratumContext, ∀ t1 : Transport, sc1.Conn = some t1 →
      IsDuplicateJob heap sc1 b →
      (NotifyNewWork heap sc1 (some b)).1.Conn = some { t1 with closed := true }
      ∧ (NotifyNewWork heap sc1 (some b)).1.Work = sc1.Work
      ∧ (NotifyNewWork heap sc1 (some b)).1.workListeners = sc1.workListeners := by
    intro sc1 t1 h1 h2
    rw [NotifyNewWork_dup heap sc1 b t1 h1 h2]
    exact ⟨rfl, rfl, rfl⟩
  by_cases hd : IsDuplicateJob heap sc a
  · have h1 := NotifyNewWork_dup heap sc a t hc hd
    have hdb : IsDuplicateJob heap
        { sc with connected := false, Conn := some { t with closed := true } } b := by
      rcases hd with ⟨cur, hcur, hj⟩ | hs
      · exact Or.inl ⟨cur, hcur, hab.trans hj⟩
      · exact Or.inr (by rw [hab]; exact hs)
    refine ⟨fun _ => ?_, fun hn => absurd hd hn, ?_, fun hn => absurd hd hn⟩
    · rw [h1]; exact ⟨rfl, rfl, rfl⟩
    · rw [h1]
      exact hsecond _ { t with closed := true } rfl hdb
  · have h1 := NotifyNewWork_fresh heap sc a hd
    have hdb : IsDuplicateJob heap
        { sc with Work := some a
                  workListeners := sc.workListeners.map fun ch => ch ++ [some a] } b :=
      Or.inl ⟨a, rfl, hab⟩
    have h2 := hsecond { sc with Work := some a
                                 workListeners := sc.workListeners.map fun ch => ch ++ [some a] }
      t hc hdb
    refine ⟨fun h => absurd h hd, fun _ => ?_, ?_, fun _ => ?_⟩
    · rw [h1]; exact ⟨rfl, rfl, hc ▸ rfl⟩
    · rw [h1]; exact h2
    · rw [h1]; exact h2.2.2

theorem NotifyNewWork_duplicate_detection_witness :
    ((NotifyNewWork heapSample (NotifyNewWork heapSample scListening (some 0)).1
        (some 1)).1.Conn = some { closed := true, sent := [] }
      ∧ (NotifyNewWork heapSample (NotifyNewWork heapSample scListening (some 0)).1
        (some 1)).1.Work = (NotifyNewWork heapSample scListening (some 0)).1.Work
      ∧ (NotifyNewWork heapSample (NotifyNewWork heapSample scListening (some 0)).1
        (some 1)).1.workListeners
          = (NotifyNewWork heapSample scListening (some 0)).1.workListeners)
    ∧ (NotifyNewWork heapSample (NotifyNewWork heapSample scListening (some 0)).1
        (some 1)).1.workListeners = [[some 0]] :=
  have h := NotifyNewWork_duplicate_detection heapSample scListening 0 1 ⟨false, []⟩ rfl rfl
  ⟨h.2.2.1, h.2.2.2 (by decide)⟩

/-- The outstanding-id set only ever receives uint64 message ids (SubmitWork
adds nothing else), and a set of uint64 items never contains a job id string:
in such a state a job is a duplicate only through the current Work. -/
theorem IsDuplicateJob_of_uint64_ids (heap : Nat → Work) (sc : StratumContext) (a : Nat)
    (hids : ∀ x ∈ sc.submittedWorkRequestIds, ∃ n, x = SetItem.uint64 n) :
    IsDuplicateJob heap sc a ↔ ∃ cur, sc.Work = some cur ∧ (heap a).JobID = (heap cur).JobID := by
  constructor
  · intro h
    rcases h with h | h
    · exact h
    · obtain ⟨n, hn⟩ := hids _ h
      cases hn
  · intro h
    exact Or.inl h

/-! ## SubmitWork -/

/-- A call on an open transport whose request serializes and whose write
succeeds: the counter advances, the line is written, the request is returned. -/
theorem CallLocked_ok (marshal : Json → Except String String) (sc : StratumContext)
    (t : Transport) (m : String) (args : Json) (line : String)
    (hc : sc.Conn = some t) (hopen : t.closed = false)
    (hm : marshal (NewRequest (some ((sc.id + 1) % 2 ^ 64)) m args).toJson = .ok line) :
    CallLocked marshal sc m args true =
      ({ sc with id := (sc.id + 1) % 2 ^ 64
                 Conn := some { t with sent := t.sent ++ [line ++ "\n"] } },
        .ok (NewRequest (some ((sc.id + 1) % 2 ^ 64)) m args)) := by
  simp only [CallLocked, Request.JsonRPCString, hm, StratumContext.Write, hc, hopen]
  rfl

/-- Submitting the work that was submitted last is a no-op. -/
theorem SubmitWork_same (marshal : Json → Except String String) (heap : Nat → Work)
    (sc : StratumContext) (work : Option Nat) (hash : String) (writeOk : Bool)
    (h : work = sc.LastSubmittedWork) :
    SubmitWork marshal heap sc work hash writeOk = (sc, .ok ()) := by
  simp only [SubmitWork, h, if_true]

/-- Submitting a work other than the last one, on an open transport whose
write succeeds: the line written is the serialized `submit` request. -/
theorem SubmitWork_new (marshal : Json → Except String String) (heap : Nat → Work)
    (sc : StratumContext) (t : Transport) (a : Nat) (hash : String)
    (hc : sc.Conn = some t) (hopen : t.closed = false)
    (hdata : 43 ≤ (heap a).Data.length)
    (hm : ∀ j, ∃ s, marshal j = .ok s)
    (hne : sc.LastSubmittedWork ≠ some a) :
    ∃ nonceStr body,
      BinToHex (((heap a).Data.drop 39).take 4) = .ok nonceStr ∧
      marshal (submitRequestJson ((sc.id + 1) % 2 ^ 64) sc.SessionID (heap a).JobID
        nonceStr hash) = .ok body ∧
      SubmitWork marshal heap sc (some a) hash true =
        (afterSubmit heap sc t a hash nonceStr body, .ok ()) := by
  have h1 : ¬ (some a = sc.LastSubmittedWork) := fun h => hne h.symm
  have h2 : ¬ ((heap a).Data.length < 43) := by omega
  obtain ⟨body, hbody⟩ := hm (submitRequestJson ((sc.id + 1) % 2 ^ 64) sc.SessionID
    (heap a).JobID (String.mk ((((heap a).Data.drop 39).take 4).flatMap
        fun b => [hexDigit (b / 16 % 16), hexDigit (b % 16)])) hash)
  refine ⟨String.mk ((((heap a).Data.drop 39).take 4).flatMap
        fun b => [hexDigit (b / 16 % 16), hexDigit (b % 16)]), body, rfl, hbody, ?_⟩
  simp only [SubmitWork, h1, if_false, h2, BinToHex]
  rw [CallLocked_ok marshal sc t "submit" _ body hc hopen hbody]
  rfl

theorem mem_setAdd_self (s : List SetItem) (x : SetItem) : x ∈ setAdd s x := by
  unfold setAdd
  by_cases h : x ∈ s
  · simp [h]
  · simp [h]

theorem mem_setAdd_of_mem (s : List SetItem) (x y : SetItem) (h : y ∈ s) : y ∈ setAdd s x := by
  unfold setAdd
  by_cases hx : x ∈ s
  · simp [hx, h]
  · simp [hx, h]

/-- C6. On a session with an open transport, successful serialization and
successful writes, for every Work instance (address a, buffer of at least 43
bytes) and every hash: SubmitWork returns nil, and a second SubmitWork of the
same instance returns nil and leaves the whole session state unchanged (no
write, no request id allocated, outstanding-id set and LastSubmittedWork
untouched).  When the instance is not the one submitted last before, the first
call writes exactly one line, the serialized submit request (next message id,
method submit, params id = session id, job_id, nonce = hex of bytes 39..42,
result = hash), adds that message id to the outstanding-id set, publishes the
submission event and makes the instance LastSubmittedWork; so the two calls
together issue exactly one submit request.  Submitting after it a distinct
instance b with equal content writes a second submit request of its own and
records a second, different message id. -/
theorem SubmitWork_dedup_by_identity (marshal : Json → Except String String)
    (heap : Nat → Work) (sc : StratumContext) (t : Transport) (a : Nat) (hash : String)
    (hc : sc.Conn = some t) (hopen : t.closed = false)
    (hdata : 43 ≤ (heap a).Data.length)
    (hm : ∀ j, ∃ s, marshal j = .ok s) :
    (SubmitWork marshal heap sc (some a) hash true).2 = .ok () ∧
    (∀ writeOk, SubmitWork marshal heap (SubmitWork marshal heap sc (some a) hash true).1
        (some a) hash writeOk = ((SubmitWork marshal heap sc (some a) hash true).1, .ok ())) ∧
    (sc.LastSubmittedWork ≠ some a →
      ∃ nonceStr body,
        BinToHex (((heap a).Data.drop 39).take 4) = .ok nonceStr
        ∧ marshal (submitRequestJson ((sc.id + 1) % 2 ^ 64) sc.SessionID (heap a).JobID
            nonceStr hash) = .ok body
        ∧ (SubmitWork marshal heap sc (some a) hash true).1.Conn
            = some { t with sent := t.sent ++ [body ++ "\n"] }
        ∧ (SubmitWork marshal heap sc (some a) hash true).1.id = (sc.id + 1) % 2 ^ 64
        ∧ (SubmitWork marshal heap sc (some a) hash true).1.submittedWorkRequestIds
            = setAdd sc.submittedWorkRequestIds (.uint64 ((sc.id + 1) % 2 ^ 64))
        ∧ SetItem.uint64 ((sc.id + 1) % 2 ^ 64)
            ∈ (SubmitWork marshal heap sc (some a) hash true).1.submittedWorkRequestIds
        ∧ (SubmitWork marshal heap sc (some a) hash true).1.submitListeners
            = sc.submitListeners.map (fun ch => ch ++
                [submitEvent sc.SessionID (heap a).JobID nonceStr hash a])
        ∧ (SubmitWork marshal heap sc (some a) hash true).1.LastSubmittedWork = some a) ∧
    (sc.LastSubmittedWork ≠ some a → ∀ b, b ≠ a → heap b = heap a →
      ∃ nonceStr body1 body2,
        BinToHex (((heap a).Data.drop 39).take 4) = .ok nonceStr
        ∧ marshal (submitRequestJson ((sc.id + 1) % 2 ^ 64) sc.SessionID (heap a).JobID
            nonceStr hash) = .ok body1
        ∧ marshal (submitRequestJson (((sc.id + 1) % 2 ^ 64 + 1) % 2 ^ 64) sc.SessionID
            (heap b).JobID nonceStr hash) = .ok body2
        ∧ (SubmitWork marshal heap (SubmitWork marshal heap sc (some a) hash true).1
            (some b) hash true).2 = .ok ()
        ∧ (SubmitWork marshal heap (SubmitWork marshal heap sc (some a) hash true).1
            (some b) hash true).1.Conn
            = some { t with sent := t.sent ++ [body1 ++ "\n", body2 ++ "\n"] }
        ∧ (SubmitWork marshal heap (SubmitWork marshal heap sc (some a) hash true).1
            (some b) hash true).1.id = ((sc.id + 1) % 2 ^ 64 + 1) % 2 ^ 64
        ∧ (SubmitWork marshal heap (SubmitWork marshal heap sc (some a) hash true).1
            (some b) hash true).1.submittedWorkRequestIds
            = setAdd (setAdd sc.submittedWorkRequestIds (.uint64 ((sc.id + 1) % 2 ^ 64)))
                (.uint64 (((sc.id + 1) % 2 ^ 64 + 1) % 2 ^ 64))
        ∧ SetItem.uint64 ((sc.id + 1) % 2 ^ 64)
            ∈ (SubmitWork marshal heap (SubmitWork marshal heap sc (some a) hash true).1
                (some b) hash true).1.submittedWorkRequestIds
        ∧ SetItem.uint64 (((sc.id + 1) % 2 ^ 64 + 1) % 2 ^ 64)
            ∈ (SubmitWork marshal heap (SubmitWork marshal heap sc (some a) hash true).1
                (some b) hash true).1.submittedWorkRequestIds
        ∧ (sc.id + 1) % 2 ^ 64 ≠ ((sc.id + 1) % 2 ^ 64 + 1) % 2 ^ 64
        ∧ (SubmitWork marshal heap (SubmitWork marshal heap sc (some a) hash true).1
            (some b) hash true).1.LastSubmittedWork = some b) := by
  by_cases hne : sc.LastSubmittedWork = some a
  · have h1 := SubmitWork_same marshal heap sc (some a) hash true hne.symm
    refine ⟨by rw [h1], fun w => ?_, fun h => absurd hne h, fun h => absurd hne h⟩
    rw [h1]
    exact SubmitWork_same marshal heap sc (some a) hash w hne.symm
  · obtain ⟨nonceStr, body, hnonce, hbody, h1⟩ :=
      SubmitWork_new marshal heap sc t a hash hc hopen hdata hm hne
    refine ⟨by rw [h1], fun w => ?_, fun _ => ?_, fun _ b hb heq => ?_⟩
    · rw [h1]
      exact SubmitWork_same marshal heap _ (some a) hash w rfl
    · rw [h1]
      exact ⟨nonceStr, body, hnonce, hbody, rfl, rfl, rfl, mem_setAdd_self _ _, rfl, rfl⟩
    · rw [h1]
      have hdb : 43 ≤ (heap b).Data.length := by rw [heq]; exact hdata
      have hneb : (afterSubmit heap sc t a hash nonceStr body).LastSubmittedWork ≠ some b := by
        intro h
        have h' : some a = some b := h
        injection h' with h'
        exact hb h'.symm
      obtain ⟨n2, body2, hnonce2, hbody2, h2⟩ := SubmitWork_new marshal heap
        (afterSubmit heap sc t a hash nonceStr body)
        { t with sent := t.sent ++ [body ++ "\n"] } b hash rfl hopen hdb hm hneb
      have hn : n2 = nonceStr := by
        rw [heq, hnonce] at hnonce2
        injection hnonce2 with hn
        exact hn.symm
      subst hn
      rw [h2]
      refine ⟨n2, body, body2, hnonce, hbody, hbody2, rfl, ?_, rfl, rfl, ?_, ?_, ?_, rfl⟩
      · show some _ = some _
        simp [List.append_assoc]
      · exact mem_setAdd_of_mem _ _ _ (mem_setAdd_self _ _)
      · exact mem_setAdd_self _ _
      · omega

theorem SubmitWork_dedup_by_identity_witness :
    (SubmitWork methodMarshal heapSample scConnected (some 0) "00ff" true).2 = .ok () ∧
    (∀ writeOk, SubmitWork methodMarshal heapSample
        (SubmitWork methodMarshal heapSample scConnected (some 0) "00ff" true).1
        (some 0) "00ff" writeOk
      = ((SubmitWork methodMarshal heapSample scConnected (some 0) "00ff" true).1, .ok ())) ∧
    (SubmitWork methodMarshal heapSample scConnected (some 0) "00ff" true).1.Conn
      = some ⟨false, ["submit\n"]⟩ ∧
    (SubmitWork methodMarshal heapSample
        (SubmitWork methodMarshal heapSample scConnected (some 0) "00ff" true).1
        (some 1) "00ff" true).1.Conn = some ⟨false, ["submit\n", "submit\n"]⟩ :=
  have h := SubmitWork_dedup_by_identity methodMarshal heapSample scConnected ⟨false, []⟩ 0
    "00ff" rfl rfl (by decide)
    (fun j => by
      unfold methodMarshal
      split
      · exact ⟨_, rfl⟩
      · exact ⟨_, rfl⟩)
  ⟨h.1, h.2.1, rfl, rfl⟩

/-! ## Handshake -/

theorem CallLocked_connected (marshal : Json → Except String String) (sc : StratumContext)
    (m : String) (args : Json) (w : Bool) :
    (CallLocked marshal sc m args w).1.connected = sc.connected := by
  unfold CallLocked StratumContext.Write
  simp only
  split
  · rfl
  · cases sc.Conn with
    | none => rfl
    | some t =>
      by_cases hcl : t.closed = true
      · simp [hcl]
      · cases w <;> simp [hcl]

/-- A failed write is reported as an error (or, without a socket, a panic):
`CallLocked` never returns a request then. -/
theorem CallLocked_write_failed (marshal : Json → Except String String) (sc : StratumContext)
    (m : String) (args : Json) (req : Request) (sc1 : StratumContext) :
    CallLocked marshal sc m args false ≠ (sc1, .ok req) := by
  unfold CallLocked StratumContext.Write
  simp only
  split
  · intro h; cases h
  · cases sc.Conn with
    | none => intro h; cases h
    | some t =>
      by_cases hcl : t.closed = true
      · simp [hcl]
      · simp [hcl]

theorem subscribeStep_connected (marshal : Json → Except String String) (sc : StratumContext)
    (w2 : Bool) (r2 : Except String Response) :
    (subscribeStep marshal sc w2 r2).1.connected = sc.connected := by
  have hc := CallLocked_connected marshal sc "mining.subscribe" (.arr []) w2
  unfold subscribeStep
  split
  · rename_i sc3 e h; rw [h] at hc; exact hc
  · rename_i sc3 e h; rw [h] at hc; exact hc
  · rename_i sc3 req h
    rw [h] at hc
    split
    · exact hc
    · exact hc
    · split
      · exact hc
      · split
        · exact hc
        · exact hc

/-- Whenever the subscribe step returns nil it has installed a record. -/
theorem subscribeStep_ok (marshal : Json → Except String String) (sc : StratumContext)
    (w2 : Bool) (r2 : Except String Response)
    (h : (subscribeStep marshal sc w2 r2).2 = .ok ()) :
    (subscribeStep marshal sc w2 r2).1.Subscribe.isSome = true := by
  unfold subscribeStep at h ⊢
  generalize CallLocked marshal sc "mining.subscribe" (.arr []) w2 = c at h ⊢
  obtain ⟨sc3, o⟩ := c
  cases o with
  | error e => cases h
  | panic e => cases h
  | ok req =>
    simp only at h ⊢
    generalize ReadResponse sc3 r2 = rr at h ⊢
    cases rr with
    | error e => cases h
    | panic e => cases h
    | ok resp =>
      simp only at h ⊢
      cases he : resp.Error with
      | some se => rw [he] at h; cases h
      | none =>
        rw [he] at h
        simp only at h ⊢
        cases hr : resp.Result with
        | none => rw [hr] at h; cases h
        | some res => rfl

/-- The subscribe step on an open transport, with successful write and a
reply carrying a result and no error. -/
theorem subscribeStep_reply (marshal : Json → Except String String) (sc : StratumContext)
    (t : Transport) (resp2 : Response) (res : Json)
    (hc : sc.Conn = some t) (hopen : t.closed = false)
    (hm : ∀ j, ∃ s, marshal j = .ok s)
    (h2e : resp2.Error = none) (h2r : resp2.Result = some res) :
    (subscribeStep marshal sc true (.ok resp2)).2 = .ok () ∧
    (subscribeStep marshal sc true (.ok resp2)).1.Subscribe = some (decodeSubscribe res) := by
  obtain ⟨line, hline⟩ := hm (NewRequest (some ((sc.id + 1) % 2 ^ 64)) "mining.subscribe"
    (.arr [])).toJson
  unfold subscribeStep
  rw [CallLocked_ok marshal sc t "mining.subscribe" _ line hc hopen hline]
  simp only [ReadResponse, hopen, Bool.false_eq_true, if_false, h2e, h2r]
  exact ⟨trivial, trivial⟩

/-- An accepted authorize reply sets the flag and hands over to the subscribe
step. -/
theorem authorizeLocked_accepted (marshal : Json → Except String String) (sc : StratumContext)
    (t : Transport) (username password : String) (resp1 : Response)
    (w2 : Bool) (r2 : Except String Response)
    (hc : sc.Conn = some t) (hopen : t.closed = false)
    (hm : ∀ j, ∃ s, marshal j = .ok s)
    (h1e : resp1.Error = none) (h1r : resp1.Result = some (.bool true)) :
    ∃ line, authorizeLocked marshal sc username password true (.ok resp1) w2 r2 =
      subscribeStep marshal
        { sc with id := (sc.id + 1) % 2 ^ 64
                  Conn := some { t with sent := t.sent ++ [line ++ "\n"] }
                  connected := true, username := username, password := password } w2 r2 := by
  obtain ⟨line, hline⟩ := hm (NewRequest (some ((sc.id + 1) % 2 ^ 64)) "mining.authorize"
    (.arr [.str username, .str password])).toJson
  refine ⟨line, ?_⟩
  unfold authorizeLocked
  rw [CallLocked_ok marshal sc t "mining.authorize" _ line hc hopen hline]
  simp only [ReadResponse, hopen, Bool.false_eq_true, if_false, h1e, h1r, unmarshalBool]

theorem atPath_null (path : List Nat) : (Json.null.atPath path).getD .null = .null := by
  cases path <;> rfl

/-- Chained `GetIndex` yields the value at the position, or the nil wrapper
when the position does not exist. -/
theorem getPath_eq (path : List Nat) : ∀ j : Json, getPath j path = (j.atPath path).getD .null := by
  induction path with
  | nil => intro j; cases j <;> rfl
  | cons i rest ih =>
    intro j
    show getPath (j.GetIndex i) rest = _
    rw [ih]
    cases j with
    | arr xs =>
      simp only [Json.GetIndex, Json.atPath, List.getD_eq_getElem?_getD]
      cases xs[i]? with
      | none => exact atPath_null rest
      | some x => rfl
    | null => exact atPath_null rest
    | bool b => exact atPath_null rest
    | int n => exact atPath_null rest
    | float => exact atPath_null rest
    | str s => exact atPath_null rest
    | obj kvs => exact atPath_null rest

theorem MustString_getPath (res : Json) (path : List Nat) :
    (getPath res path).MustString = stringAt res path := by
  rw [getPath_eq]
  unfold stringAt
  cases res.atPath path with
  | none => rfl
  | some x => cases x <;> rfl

theorem MustInt_getPath (res : Json) (path : List Nat) :
    (getPath res path).MustInt = intAt res path := by
  rw [getPath_eq]
  unfold intAt
  cases res.atPath path with
  | none => rfl
  | some x => cases x <;> rfl

/-- The record decoded from a subscribe result, position by position. -/
theorem decodeSubscribe_eq (res : Json) :
    decodeSubscribe res =
      ⟨stringAt res [0, 0, 1], stringAt res [0, 1, 1], stringAt res [0, 2], intAt res [0, 3]⟩ := by
  have h1 := MustString_getPath res [0, 0, 1]
  have h2 := MustString_getPath res [0, 1, 1]
  have h3 := MustString_getPath res [0, 2]
  have h4 := MustInt_getPath res [0, 3]
  simp only [getPath, List.foldl] at h1 h2 h3 h4
  simp only [decodeSubscribe, h1, h2, h3, h4]

theorem atPath_of_first_not_array (res : Json) (i : Nat) (rest : List Nat)
    (h : ∀ xs, res.atPath [0] ≠ some (.arr xs)) : res.atPath (0 :: i :: rest) = none := by
  cases res with
  | arr ys =>
    simp only [Json.atPath] at h ⊢
    cases h0 : ys[0]? with
    | none => rfl
    | some y =>
      rw [h0] at h
      simp only at h ⊢
      cases y with
      | arr zs => exact absurd rfl (h zs)
      | null => rfl
      | bool b => rfl
      | int n => rfl
      | float => rfl
      | str s => rfl
      | obj kvs => rfl
  | null => rfl
  | bool b => rfl
  | int n => rfl
  | float => rfl
  | str s => rfl
  | obj kvs => rfl

/-- C8 (as amended). For every authorize reply with result true followed by a
subscribe reply that carries a result and no error, on an open transport with
successful writes, Authorize returns nil and installs a Subscribe record
whatever the shape of the result: MiningNotify, MiningSetDifficulty and
ExtraNonce1 hold the strings at result[0][0][1], result[0][1][1] and
result[0][2], Extranonce2_size the int64 integer at result[0][3], and each
field holds its zero value when its position is missing or of another type.
So a result of the fixed shape gives exactly those four values, and a result
whose first element is missing or not an array (empty array, flat array,
object) gives the all-zero record. -/
theorem authorize_installs_subscribe (marshal : Json → Except String String)
    (sc : StratumContext) (t : Transport) (username password : String)
    (resp1 resp2 : Response) (res : Json)
    (hc : sc.Conn = some t) (hopen : t.closed = false)
    (hm : ∀ j, ∃ s, marshal j = .ok s)
    (h1e : resp1.Error = none) (h1r : resp1.Result = some (.bool true))
    (h2e : resp2.Error = none) (h2r : resp2.Result = some res) :
    (authorizeLocked marshal sc username password true (.ok resp1) true (.ok resp2)).2 = .ok () ∧
    (authorizeLocked marshal sc username password true (.ok resp1) true (.ok resp2)).1.Subscribe
      = some ⟨stringAt res [0, 0, 1], stringAt res [0, 1, 1], stringAt res [0, 2],
          intAt res [0, 3]⟩ ∧
    (∀ n d x : String, ∀ k : Int,
      res.atPath [0, 0, 1] = some (.str n) → res.atPath [0, 1, 1] = some (.str d) →
      res.atPath [0, 2] = some (.str x) → res.atPath [0, 3] = some (.int k) →
      -(2 ^ 63) ≤ k → k < 2 ^ 63 →
      (authorizeLocked marshal sc username password true (.ok resp1) true (.ok resp2)).1.Subscribe
        = some ⟨n, d, x, k⟩) ∧
    ((∀ xs, res.atPath [0] ≠ some (.arr xs)) →
      (authorizeLocked marshal sc username password true (.ok resp1) true (.ok resp2)).1.Subscribe
        = some ⟨"", "", "", 0⟩) := by
  obtain ⟨line, hline⟩ := authorizeLocked_accepted marshal sc t username password resp1
    true (.ok resp2) hc hopen hm h1e h1r
  obtain ⟨hok, hsub⟩ := subscribeStep_reply marshal
    { sc with id := (sc.id + 1) % 2 ^ 64
              Conn := some { t with sent := t.sent ++ [line ++ "\n"] }
              connected := true, username := username, password := password }
    { t with sent := t.sent ++ [line ++ "\n"] } resp2 res rfl hopen hm h2e h2r
  rw [hline, hsub, decodeSubscribe_eq]
  refine ⟨hok, rfl, ?_, ?_⟩
  · intro n d x k hn hd hx hk hlo hhi
    simp only [stringAt, intAt, hn, hd, hx, hk, hlo, hhi, and_self, if_true]
  · intro hno
    simp only [stringAt, intAt, atPath_of_first_not_array res _ _ hno]

theorem authorize_installs_subscribe_witness :
    (authorizeLocked sampleMarshal scConnected "user" "pass" true (.ok replyTrue) true
        (.ok ⟨some 2, none, "", some subscribeResult, none⟩)).2 = .ok () ∧
    (authorizeLocked sampleMarshal scConnected "user" "pass" true (.ok replyTrue) true
        (.ok ⟨some 2, none, "", some subscribeResult, none⟩)).1.Subscribe
      = some ⟨"n1", "d1", "08000002", 4⟩ :=
  have h := authorize_installs_subscribe sampleMarshal scConnected ⟨false, []⟩ "user" "pass"
    replyTrue ⟨some 2, none, "", some subscribeResult, none⟩ subscribeResult rfl rfl
    (fun _ => ⟨_, rfl⟩) rfl rfl rfl rfl
  ⟨h.1, h.2.2.1 "n1" "d1" "08000002" 4 rfl rfl rfl rfl (by decide) (by decide)⟩

/-- C8 (counterexample). After an authorize reply with result true, a subscribe
reply whose result is the empty array does not make Authorize fail: it returns
nil and installs the all-zero Subscribe record on a session that had none. -/
theorem authorize_accepts_empty_subscribe_result :
    (authorizeLocked sampleMarshal scConnected "user" "pass" true (.ok replyTrue) true
        (.ok replyEmptyArray)).2 = .ok () ∧
    (authorizeLocked sampleMarshal scConnected "user" "pass" true (.ok replyTrue) true
        (.ok replyEmptyArray)).2.isError = false ∧
    (authorizeLocked sampleMarshal scConnected "user" "pass" true (.ok replyTrue) true
        (.ok replyEmptyArray)).1.Subscribe = some ⟨"", "", "", 0⟩ ∧
    scConnected.Subscribe = none :=
  ⟨rfl, rfl, rfl, rfl⟩

/-- Shape of every run of `authorizeLocked`: either it stops at or before the
authorize reply, with the flag untouched and a non-nil outcome, or the reply
was accepted and the run continues as the subscribe step on a state whose
flag is set. -/
theorem authorizeLocked_shape (marshal : Json → Except String String) (sc : StratumContext)
    (username password : String) (w1 : Bool) (r1 : Except String Response)
    (w2 : Bool) (r2 : Except String Response) :
    ((authorizeLocked marshal sc username password w1 r1 w2 r2).1.connected = sc.connected
      ∧ (authorizeLocked marshal sc username password w1 r1 w2 r2).2 ≠ .ok ()) ∨
    (∃ sc1 req resp raw sc2,
      CallLocked marshal sc "mining.authorize" (.arr [.str username, .str password]) w1
        = (sc1, .ok req)
      ∧ r1 = .ok resp ∧ resp.Error = none ∧ resp.Result = some raw
      ∧ unmarshalBool raw = .ok true
      ∧ sc2.connected = true
      ∧ authorizeLocked marshal sc username password w1 r1 w2 r2
          = subscribeStep marshal sc2 w2 r2) := by
  have hcc := CallLocked_connected marshal sc "mining.authorize"
    (.arr [.str username, .str password]) w1
  unfold authorizeLocked
  generalize CallLocked marshal sc "mining.authorize"
    (.arr [.str username, .str password]) w1 = c at hcc ⊢
  obtain ⟨sc1, o⟩ := c
  cases o with
  | error e => exact Or.inl ⟨hcc, fun h => by cases h⟩
  | panic e => exact Or.inl ⟨hcc, fun h => by cases h⟩
  | ok req =>
    simp only
    unfold ReadResponse
    cases hconn : sc1.Conn with
    | none => exact Or.inl ⟨hcc, fun h => by cases h⟩
    | some t1 =>
      by_cases hcl : t1.closed = true
      · simp only [hcl, if_true]
        exact Or.inl ⟨hcc, fun h => by cases h⟩
      have hcl2 : t1.closed = false := by simpa using hcl
      simp only [hcl2, Bool.false_eq_true, if_false]
      cases r1 with
      | error e => exact Or.inl ⟨hcc, fun h => by cases h⟩
      | ok resp =>
        simp only
        cases he : resp.Error with
        | some se => exact Or.inl ⟨hcc, fun h => by cases h⟩
        | none =>
          simp only
          cases hr : resp.Result with
          | none => exact Or.inl ⟨hcc, fun h => by cases h⟩
          | some raw =>
            simp only
            cases hu : unmarshalBool raw with
            | error e => exact Or.inl ⟨hcc, fun h => by cases h⟩
            | ok b =>
              cases b with
              | false => exact Or.inl ⟨hcc, fun h => by cases h⟩
              | true =>
                exact Or.inr ⟨sc1, req, resp, raw, _, rfl, rfl, he, hr, hu, rfl, rfl⟩

/-- With a socket, `CallLocked` never panics: it returns an error, or the write
succeeded and the socket is still there. -/
theorem CallLocked_cases (marshal : Json → Except String String) (sc : StratumContext)
    (t : Transport) (m : String) (args : Json) (w : Bool) (hc : sc.Conn = some t) :
    (∃ sc1 e, CallLocked marshal sc m args w = (sc1, .error e)) ∨
    (w = true ∧ ∃ sc1 req t1, CallLocked marshal sc m args w = (sc1, .ok req)
      ∧ sc1.Conn = some t1) := by
  unfold CallLocked StratumContext.Write
  simp only [hc]
  split
  · exact Or.inl ⟨_, _, rfl⟩
  · by_cases hcl : t.closed = true
    · simp only [hcl, if_true]
      exact Or.inl ⟨_, _, rfl⟩
    · have hcl2 : t.closed = false := by simpa using hcl
      simp only [hcl2, Bool.false_eq_true, if_false]
      cases w with
      | false => exact Or.inl ⟨_, _, rfl⟩
      | true => exact Or.inr ⟨rfl, _, _, _, rfl, rfl⟩

/-- On a session with a socket, a failure at or before the authorize reply
makes `authorizeLocked` return an error. -/
theorem authorizeLocked_early_error (marshal : Json → Except String String)
    (sc : StratumContext) (t : Transport) (username password : String) (w1 : Bool)
    (r1 : Except String Response) (w2 : Bool) (r2 : Except String Response)
    (hc : sc.Conn = some t)
    (hfail : w1 = false ∨ (∃ e, r1 = .error e)
      ∨ (∃ resp se, r1 = .ok resp ∧ resp.Error = some se)
      ∨ (∃ resp, r1 = .ok resp ∧ resp.Result = some (.bool false))) :
    ∃ msg, (authorizeLocked marshal sc username password w1 r1 w2 r2).2 = .error msg := by
  unfold authorizeLocked
  rcases CallLocked_cases marshal sc t "mining.authorize"
    (.arr [.str username, .str password]) w1 hc with
    ⟨sc1, e, hcall⟩ | ⟨hw, sc1, req, t1, hcall, hc1⟩
  · rw [hcall]; exact ⟨e, rfl⟩
  · rw [hcall]
    simp only [ReadResponse, hc1]
    by_cases hcl : t1.closed = true
    · simp only [hcl, if_true]; exact ⟨_, rfl⟩
    · have hcl2 : t1.closed = false := by simpa using hcl
      simp only [hcl2, Bool.false_eq_true, if_false]
      rcases hfail with hw1 | ⟨e, hr⟩ | ⟨resp, se, hr, hse⟩ | ⟨resp, hr, hres⟩
      · rw [hw] at hw1; cases hw1
      · subst hr; exact ⟨e, rfl⟩
      · subst hr
        simp only [hse]
        exact ⟨_, rfl⟩
      · subst hr
        cases he : resp.Error with
        | some se =>
          simp only [he]
          exact ⟨_, rfl⟩
        | none =>
          simp only [he, hres, unmarshalBool]
          exact ⟨_, rfl⟩

/-- On a session with a socket, a failed write, a failed read or a protocol
error in the subscribe step makes it return an error. -/
theorem subscribeStep_error (marshal : Json → Except String String) (sc : StratumContext)
    (t : Transport) (w2 : Bool) (r2 : Except String Response) (hc : sc.Conn = some t)
    (hfail : w2 = false ∨ (∃ e, r2 = .error e)
      ∨ (∃ resp se, r2 = .ok resp ∧ resp.Error = some se)) :
    ∃ msg, (subscribeStep marshal sc w2 r2).2 = .error msg := by
  unfold subscribeStep
  rcases CallLocked_cases marshal sc t "mining.subscribe" (.arr []) w2 hc with
    ⟨sc1, e, hcall⟩ | ⟨hw, sc1, req, t1, hcall, hc1⟩
  · rw [hcall]; exact ⟨e, rfl⟩
  · rw [hcall]
    simp only [ReadResponse, hc1]
    by_cases hcl : t1.closed = true
    · simp only [hcl, if_true]; exact ⟨_, rfl⟩
    · have hcl2 : t1.closed = false := by simpa using hcl
      simp only [hcl2, Bool.false_eq_true, if_false]
      rcases hfail with hw2 | ⟨e, hr⟩ | ⟨resp, se, hr, hse⟩
      · rw [hw] at hw2; cases hw2
      · subst hr; exact ⟨e, rfl⟩
      · subst hr
        simp only [hse]
        exact ⟨_, rfl⟩

/-- C9 (as amended). For every session that holds a transport and is not
authenticated when Authorize is called and every sequence of pool replies:
when Authorize stops at or before the authorize reply (write failure, read
failure, protocol error on the reply, result false) it returns an error and
the flag is still false (without a transport it does not return nil either,
and the flag is still false); when the authorize reply is accepted (result
true) the flag is set before subscribe is issued and is true afterwards
whatever the subscribe step does, and when that step fails (write failure,
read failure, protocol error) Authorize returns an error with the flag true;
and whenever Authorize returns nil the flag is true and a Subscribe record is
installed. -/
theorem authorize_connected_flag (marshal : Json → Except String String) (sc : StratumContext)
    (username password : String) (w1 : Bool) (r1 : Except String Response)
    (w2 : Bool) (r2 : Except String Response) (h0 : sc.connected = false) :
    ((w1 = false ∨ (∃ e, r1 = .error e) ∨ (∃ resp se, r1 = .ok resp ∧ resp.Error = some se)
        ∨ (∃ resp, r1 = .ok resp ∧ resp.Result = some (.bool false))) →
      (authorizeLocked marshal sc username password w1 r1 w2 r2).1.connected = false
      ∧ (authorizeLocked marshal sc username password w1 r1 w2 r2).2 ≠ .ok ()
      ∧ (∀ t, sc.Conn = some t →
          ∃ msg, (authorizeLocked marshal sc username password w1 r1 w2 r2).2 = .error msg)) ∧
    (∀ t resp, sc.Conn = some t → t.closed = false → (∀ j, ∃ s, marshal j = .ok s) →
      w1 = true → r1 = .ok resp → resp.Error = none → resp.Result = some (.bool true) →
      (authorizeLocked marshal sc username password w1 r1 w2 r2).1.connected = true
      ∧ ((w2 = false ∨ (∃ e, r2 = .error e)
            ∨ (∃ resp2 se, r2 = .ok resp2 ∧ resp2.Error = some se)) →
          ∃ msg, (authorizeLocked marshal sc username password w1 r1 w2 r2).2 = .error msg)) ∧
    ((authorizeLocked marshal sc username password w1 r1 w2 r2).2 = .ok () →
      (authorizeLocked marshal sc username password w1 r1 w2 r2).1.connected = true
      ∧ (authorizeLocked marshal sc username password w1 r1 w2 r2).1.Subscribe.isSome = true) := by
  refine ⟨?_, ?_, ?_⟩
  · intro hfail
    refine ⟨?_, ?_, fun t hc =>
      authorizeLocked_early_error marshal sc t username password w1 r1 w2 r2 hc hfail⟩
    all_goals
      rcases authorizeLocked_shape marshal sc username password w1 r1 w2 r2 with
        ⟨h1, h2⟩ | ⟨sc1, req, resp, raw, sc2, hcall, hr1, he, hres, hu, _, _⟩
      · first | exact h1.trans h0 | exact h2
      · exfalso
        rcases hfail with hw | ⟨e, hre⟩ | ⟨resp', se, hr', hse⟩ | ⟨resp', hr', hfalse⟩
        · subst hw
          exact CallLocked_write_failed marshal sc _ _ req sc1 hcall
        · rw [hre] at hr1; cases hr1
        · rw [hr'] at hr1
          injection hr1 with hr1
          subst hr1
          rw [hse] at he
          cases he
        · rw [hr'] at hr1
          injection hr1 with hr1
          subst hr1
          rw [hfalse] at hres
          injection hres with hres
          subst hres
          cases hu
  · intro t resp hc hopen hm hw hr1 he hres
    subst hw hr1
    obtain ⟨line, hline⟩ := authorizeLocked_accepted marshal sc t username password resp
      w2 r2 hc hopen hm he hres
    rw [hline]
    refine ⟨subscribeStep_connected _ _ _ _, fun hfail => ?_⟩
    exact subscribeStep_error marshal _ { t with sent := t.sent ++ [line ++ "\n"] } w2 r2 rfl
      hfail
  · intro hok
    rcases authorizeLocked_shape marshal sc username password w1 r1 w2 r2 with
      ⟨_, h2⟩ | ⟨sc1, req, resp, raw, sc2, _, _, _, _, _, hflag, hrun⟩
    · exact absurd hok h2
    · rw [hrun] at hok ⊢
      exact ⟨(subscribeStep_connected marshal sc2 w2 r2).trans hflag,
        subscribeStep_ok marshal sc2 w2 r2 hok⟩

theorem authorize_connected_flag_witness :
    ((authorizeLocked sampleMarshal scConnected "user" "pass" true (.ok replyTrue) true
        (.ok replyEmptyArray)).1.connected = true
      ∧ (authorizeLocked sampleMarshal scConnected "user" "pass" true (.ok replyTrue) true
        (.ok replyEmptyArray)).1.Subscribe.isSome = true)
    ∧ (authorizeLocked sampleMarshal scConnected "user" "pass" true (.ok replyTrue) true
        (.ok replyEmptyArray)).1.connected = true :=
  have h := authorize_connected_flag sampleMarshal scConnected "user" "pass" true
    (.ok replyTrue) true (.ok replyEmptyArray) rfl
  ⟨h.2.2 rfl, (h.2.1 ⟨false, []⟩ replyTrue rfl rfl (fun _ => ⟨_, rfl⟩) rfl rfl rfl rfl).1⟩

/-- C9 (counterexample). After an accepted authorize reply, a failed write of
the subscribe request makes Authorize return an error while the flag, false
before the call, is true afterwards. -/
theorem authorize_error_leaves_flag_set :
    scConnected.connected = false ∧
    (authorizeLocked sampleMarshal scConnected "user" "pass" true (.ok replyTrue) false
        (.error "EOF")).2 = .error "write failed" ∧
    (authorizeLocked sampleMarshal scConnected "user" "pass" true (.ok replyTrue) false
        (.error "EOF")).1.connected = true ∧
    (authorizeLocked sampleMarshal scConnected "user" "pass" true (.ok replyTrue) false
        (.error "EOF")).1.Subscribe = none :=
  ⟨rfl, rfl, rfl, rfl⟩

/-! ## Reconnect -/

/-- Once the last recorded reconnect time lies at least five seconds back, the
retry loop never sleeps: with any number of failed dials followed by a
successful one it makes the attempts back to back. -/
theorem reconnectLoop_no_sleep (sc : StratumContext) (d : Nat) :
    ∀ (fails : List Nat) (reconnectTimeout now : Int),
      reconnectTimeout ≤ 5 * Second → 5 * Second ≤ now - sc.lastReconnectTime →
      reconnectLoop sc reconnectTimeout now (fails.map (fun n => ⟨false, n⟩) ++ [⟨true, d⟩]) =
        some ({ sc with url := sc.url, Conn := some ⟨false, []⟩ },
          now + (fails.sum : Nat) + d,
          List.replicate fails.length (.connect false) ++ [.connect true]) := by
  intro fails
  induction fails with
  | nil =>
    intro reconnectTimeout now h1 h2
    have hs : ¬ (timeSub now sc.lastReconnectTime < reconnectTimeout) := by
      unfold timeSub maxDuration minDuration
      unfold Second at h1 h2
      split
      · omega
      · split
        · omega
        · omega
    simp [reconnectLoop, hs, Connect]
  | cons n rest ih =>
    intro reconnectTimeout now h1 h2
    have hs : ¬ (timeSub now sc.lastReconnectTime < reconnectTimeout) := by
      unfold timeSub maxDuration minDuration
      unfold Second at h1 h2
      split
      · omega
      · split
        · omega
        · omega
    have ih' := ih (5 * Second) (now + n) (Int.le_refl _) (by omega)
    simp only [List.map_cons, List.cons_append, reconnectLoop, hs, decide_False, Connect,
      if_false, Bool.false_eq_true, List.append_eq, ih', List.nil_append, List.length_cons,
      List.replicate_succ, List.sum_cons, List.cons_append, Nat.cast_add, Int.add_assoc]

/-- C10. On a session whose lastReconnectTime holds its only value, the zero
time, at a present-day clock reading, with two failed dials followed by a
successful one, Reconnect makes the three Connect attempts back to back: no
sleep step occurs between them and the clock does not advance; the handshake
with the remembered credentials follows the successful Connect. -/
theorem Reconnect_retries_without_sleep :
    scAuthorized.lastReconnectTime = 0 ∧
    ∃ sc1, Reconnect sampleMarshal scAuthorized true clockNow
        [⟨false, 0⟩, ⟨false, 0⟩, ⟨true, 0⟩] true (.ok replyTrue) true (.ok replySubscribe) =
      some (sc1, clockNow,
        [.connect false, .connect false, .connect true, .handshake "user" "pass"]) :=
  ⟨rfl, _, rfl⟩

/-- Had lastReconnectTime been the current instant, the loop would sleep one
second before the first attempt and five seconds before the first retry, and
not at all before the next one. -/
theorem reconnectLoop_recent_schedule :
    ∃ sc1 now1, reconnectLoop { scAuthorized with lastReconnectTime := clockNow } (1 * Second)
        clockNow [⟨false, 0⟩, ⟨false, 0⟩, ⟨true, 0⟩] =
      some (sc1, now1,
        [.sleep (1 * Second), .connect false, .sleep (5 * Second), .connect false,
         .connect true]) :=
  ⟨_, _, rfl⟩
end Stratum
